import Mathlib

/-!
# goEthClient: transaction scripts

A shallow embedding of the Go programs of the repository

* `src/contracts/counter_deploy.go` (deploy the Counter contract, call `increment`,
  read the event logs),
* `src/go/main.go` (the same flow written against generated bindings),
* `src/go/send_transaction.go` (a plain transfer),
* `src/go/query_block_Hash.go` (receipt status of a transaction),
* `src/go/query_block_number.go` (position of a transaction in a block).

Every program is a `main` that talks to a remote node.  The node, the file system and
the process environment are an explicit record of answers (`Env`); a run of `main` is
the list of effects it performed together with the way it ended (`Run`).
Go's `*big.Int` is `Int`, `uint64` is `Nat` taken modulo `2 ^ 64` where a conversion
can wrap, and a Go result pair `(value, err)` is `Ret`.
-/

namespace GoEthClient

/-! ## Values shared by the programs -/

/-- A Go result pair `(value, err)`; `err = none` is Go's `err == nil`. -/
structure Ret (α : Type) where
  val : α
  err : Option String
deriving Repr, DecidableEq

/-- A 32-byte hash (`common.Hash`), as the number it denotes. -/
abbrev Hash := Nat

/-- An account or contract address (`common.Address`) with the text `Address.Hex()` gives. -/
structure Address where
  Hex : String
deriving Repr, DecidableEq

/-- The fields of `types.Receipt` the programs read. -/
structure Receipt where
  Status : Nat
  BlockNumber : Int
deriving Repr, DecidableEq

/-- The fields of `bind.TransactOpts` the programs set.  `NewKeyedTransactorWithChainID`
leaves `Nonce`, `GasPrice` and `Value` nil and `GasLimit` zero. -/
structure TransactOpts where
  ChainID : Int
  Nonce : Option Int
  GasPrice : Option Int
  GasLimit : Nat
  Value : Option Int
deriving Repr, DecidableEq

/-- The legacy transaction `types.NewTransaction(nonce, to, value, gasLimit, gasPrice, data)`. -/
structure Transaction where
  Nonce : Nat
  To : Address
  Value : Int
  Gas : Nat
  GasPrice : Int
  Data : List (Fin 256)
deriving Repr, DecidableEq

/-- Go's conversion `int64(n)` of a `uint64`: the two's complement reading of the low 64 bits. -/
def int64 (n : Nat) : Int :=
  if n % 2 ^ 64 < 2 ^ 63 then ((n % 2 ^ 64 : Nat) : Int) else ((n % 2 ^ 64 : Nat) : Int) - 2 ^ 64

/-- The constant `big.NewInt(1000000000000000)` of the balance guard: 0.001 ETH in wei. -/
def minBalance : Int := 1000000000000000

/-! ## Interface description and event logs

`build/Counter.abi` and the `abi` package of go-ethereum are not part of the sources; the
definitions below follow the library calls the event loop makes (`EventByID`,
`UnpackIntoInterface`) for the target `struct { NewCount *big.Int }`. -/

/-- The type of an event argument: `uint256`, or any other type (which cannot be stored
in a `*big.Int` field by this model). -/
inductive Ty where
  | uint256
  | other
deriving Repr, DecidableEq

/-- One argument of an event (`abi.Argument`). -/
structure Argument where
  Name : String
  Typ : Ty
  Indexed : Bool
deriving Repr, DecidableEq

/-- One event of the interface description (`abi.Event`). -/
structure Event where
  Name : String
  ID : Hash
  Inputs : List Argument
deriving Repr, DecidableEq

/-- The events of a parsed interface description (`abi.ABI.Events`). -/
structure ABI where
  Events : List Event
deriving Repr, DecidableEq

/-- A log entry (`types.Log`): the fields the event loop reads. -/
structure Log where
  TxHash : Hash
  Topics : List Hash
  Data : List (Fin 256)
deriving Repr, DecidableEq

/-- The method `ABI.EventByID`: the event whose identifier equals the topic. -/
def EventByID (parsedABI : ABI) (topic : Hash) : Except String Event :=
  match parsedABI.Events.find? (fun event => event.ID == topic) with
  | some event => .ok event
  | none => .error "no event with id"

/-- The big-endian reading `new(big.Int).SetBytes(b)`. -/
def SetBytes (b : List (Fin 256)) : Nat :=
  b.foldl (fun acc x => acc * 256 + x.val) 0

/-- The 32-byte slice `output[index:index+32]`. -/
def word (output : List (Fin 256)) (index : Nat) : List (Fin 256) :=
  (output.drop index).take 32

/-- The function `toGoType(index, t, output)` for the modelled types. -/
def toGoType (index : Nat) (t : Ty) (output : List (Fin 256)) : Except String Nat :=
  if index + 32 > output.length then
    .error "abi: cannot marshal in to go type: length insufficient"
  else
    match t with
    | .uint256 => .ok (SetBytes (word output index))
    | .other => .error "abi: cannot unmarshal in to *big.Int"

/-- The loop of `Arguments.UnpackValues` over the non-indexed arguments, from position `index`. -/
def UnpackValues : Nat → List Argument → List (Fin 256) → Except String (List Nat)
  | _, [], _ => .ok []
  | index, arg :: rest, data =>
    match toGoType (index * 32) arg.Typ data with
    | .error err => .error err
    | .ok v =>
      match UnpackValues (index + 1) rest data with
      | .error err => .error err
      | .ok vs => .ok (v :: vs)

/-- The method `Arguments.NonIndexed`. -/
def NonIndexed (arguments : List Argument) : List Argument :=
  arguments.filter (fun arg => !arg.Indexed)

/-- The method `Arguments.Unpack`. -/
def Unpack (arguments : List Argument) (data : List (Fin 256)) : Except String (List Nat) :=
  if data.length = 0 then
    if (NonIndexed arguments).length ≠ 0 then
      .error "abi: attempting to unmarshall an empty string while arguments are expected"
    else .ok []
  else UnpackValues 0 (NonIndexed arguments) data

/-- Upper-case the first character of a word. -/
def upperFirst : List Char → List Char
  | [] => []
  | c :: cs => c.toUpper :: cs

/-- Split a character list at every underscore. -/
def splitUnderscore : List Char → List (List Char)
  | [] => [[]]
  | c :: cs =>
    if c = '_' then [] :: splitUnderscore cs
    else
      match splitUnderscore cs with
      | [] => [[c]]
      | part :: parts => (c :: part) :: parts

/-- The function `abi.ToCamelCase`: capitalise each underscore-separated part and join. -/
def ToCamelCase (input : String) : String :=
  String.mk ((splitUnderscore input.toList).map upperFirst).flatten

/-- The target of the event loop: `var eventData struct { NewCount *big.Int }`. -/
structure EventData where
  NewCount : Option Nat
deriving Repr, DecidableEq

/-- The method `Arguments.Copy` into `EventData`: a single argument is stored in the first
field (`copyAtomic`); with several arguments every non-indexed one is matched to a field by
its camel-cased name (`copyTuple`), and the only field is `NewCount`. -/
def Copy (arguments : List Argument) (values : List Nat) : Except String EventData :=
  match values with
  | [] =>
    if (NonIndexed arguments).length ≠ 0 then
      .error "abi: attempting to copy no values while arguments are expected"
    else .ok ⟨none⟩
  | v :: _ =>
    if arguments.length > 1 then
      match NonIndexed arguments with
      | [arg] =>
        if ToCamelCase arg.Name = "NewCount" then .ok ⟨some v⟩
        else .error "abi: field cannot be found in the given value"
      | _ => .error "abi: field cannot be found in the given value"
    else .ok ⟨some v⟩

/-- The method `ABI.UnpackIntoInterface(&eventData, name, data)`: the arguments are those of
the event called `name`. -/
def UnpackIntoInterface (parsedABI : ABI) (name : String) (data : List (Fin 256)) :
    Except String EventData :=
  match parsedABI.Events.find? (fun event => event.Name == name) with
  | none => .error "abi: could not locate named method or event"
  | some event =>
    match Unpack event.Inputs data with
    | .error err => .error err
    | .ok values => Copy event.Inputs values

/-- The big-endian encoding of an unsigned integer on `n` bytes, the way the contract
lays out an integer in the data of a log (the encoder is not part of the sources). -/
def encodeBE : Nat → Nat → List (Fin 256)
  | 0, _ => []
  | n + 1, v => encodeBE n (v / 256) ++ [⟨v % 256, Nat.mod_lt _ (by decide)⟩]

/-- The data of a log carrying one `uint256`: its 32-byte big-endian ABI encoding. -/
def encodeUint256 (v : Nat) : List (Fin 256) := encodeBE 32 v

/-! ## Runs: effects and exits -/

/-- The call after which a program ends through `log.Fatal`. -/
inductive Stage where
  | connect
  | privateKey
  | publicKey
  | balance
  | chainID
  | transactor
  | nonce
  | gasPrice
  | readABI
  | readBin
  | parseABI
  | deploy
  | waitMined
  | newCounter
  | getCount
  | increment
  | signTx
  | send
  | query
deriving Repr, DecidableEq

/-- The lines a program prints that mark a decision it took (presentation-only lines such as
the balance in ETH or the elapsed time are not recorded). -/
inductive Msg where
  | banner
  | connected
  | missingKey
  | usingAddress (a : Address)
  | lowBalance
  | gasPrice (p : Int)
  | gasLimit (g : Nat)
  | deploying
  | deployed (a : Address)
  | deploySucceeded
  | addressSaved
  | addressNotSaved (err : String)
  | deployFailed
  | creatingInstance
  | count (c : Int)
  | countUnparsable
  | incrementing
  | incrementSent
  | incrementSucceeded
  | incrementFailed
  | logsUnavailable (err : String)
  | noLogs
  | eventHeader (i : Nat) (txHash : Hash)
  | eventUnknown (err : String)
  | eventName (name : String)
  | eventDataError (err : String)
  | eventNewCount (v : Option Nat)
  | logLine (vLog : Log)
  | allDone
  | sender (a : Address)
  | balance (b : Int)
  | sent
  | pending (isPending : Bool)
  | confirmed
  | statusSuccess
  | statusFailure
deriving Repr, DecidableEq

/-- What a program does to the outside world. -/
inductive Effect where
  | print (m : Msg)
  | deployContract (auth : TransactOpts)
  | transact (auth : TransactOpts) (method : String)
  | writeFile (name : String) (content : String)
  | signTx (tx : Transaction) (chainID : Int)
  | sendTransaction (tx : Transaction) (chainID : Int)
deriving Repr, DecidableEq

/-- How a program ends: `log.Fatal` after a failed call, an early `return`, the end of
`main`, a wait that has not returned within the polls granted, or a runtime panic. -/
inductive Exit where
  | fatal (stage : Stage) (err : String)
  | returned
  | finished
  | blocked
  | panicked
deriving Repr, DecidableEq

/-- A run of a program: the effects in the order performed, and the exit. -/
structure Run where
  effects : List Effect
  exit : Exit
deriving Repr, DecidableEq

/-- End the run here. -/
def Run.stop (e : Exit) : Run := ⟨[], e⟩

/-- Perform an effect, then continue. -/
def Run.act (e : Effect) (k : Run) : Run := ⟨e :: k.effects, k.exit⟩

/-- Print a line, then continue. -/
def Run.say (m : Msg) (k : Run) : Run := Run.act (.print m) k

/-! ## Waiting for a receipt

`bind.WaitMined(ctx, client, tx)` of go-ethereum asks the node for the receipt once per
tick of a one-second ticker; after an unanswered poll it returns `ctx.Err()` when the
context is done and otherwise polls again.  Time is counted in polls. -/

/-- A `context.Context`: at which poll, if any, `ctx.Done()` is closed, with `ctx.Err()`. -/
structure Context where
  done : Nat → Option String

/-- The context `context.Background()`: never cancelled, no deadline. -/
def Context.Background : Context := ⟨fun _ => none⟩

/-- The two ways `bind.WaitMined` returns. -/
inductive WaitResult where
  | mined (receipt : Receipt)
  | failed (err : String)
deriving Repr, DecidableEq

/-- The loop of `bind.WaitMined`, given at most `fuel` polls starting at poll `k`;
`receiptAt k` is the receipt the node returns at poll `k` (`none` for "not found" or any
other error).  `none` means the wait has not returned within the polls granted. -/
def WaitMined (ctx : Context) (receiptAt : Nat → Option Receipt) : Nat → Nat → Option WaitResult
  | 0, _ => none
  | fuel + 1, k =>
    match receiptAt k with
    | some receipt => some (.mined receipt)
    | none =>
      match ctx.done k with
      | some err => some (.failed err)
      | none => WaitMined ctx receiptAt fuel (k + 1)

/-! ## The environment of a run -/

/-- The answers of the outside world, one field per call in program order. -/
structure Env where
  /-- error of `ethclient.Dial` -/
  dial : Option String
  /-- value of the environment variable `PRIVATE_KEY` -/
  PRIVATE_KEY : String
  /-- error of `crypto.HexToECDSA` -/
  hexToECDSA : Option String
  /-- whether the public key is an `*ecdsa.PublicKey` -/
  publicKeyOk : Bool
  /-- the address derived from the key -/
  fromAddress : Address
  /-- answer of `client.BalanceAt` -/
  balance : Ret Int
  /-- answer of `client.NetworkID` -/
  networkID : Ret Int
  /-- error of `bind.NewKeyedTransactorWithChainID` -/
  newTransactor : Option String
  /-- answer of the first `client.PendingNonceAt` -/
  pendingNonce : Ret Nat
  /-- answer of the first `client.SuggestGasPrice` -/
  suggestGasPrice : Ret Int
  /-- error of reading `build/Counter.abi` -/
  readABI : Option String
  /-- error of reading `build/Counter.bin` -/
  readBin : Option String
  /-- answer of `abi.JSON` -/
  parseABI : Ret ABI
  /-- answer of `bind.DeployContract`: the contract address -/
  deployContract : Ret Address
  /-- receipt of the deployment transaction at each poll -/
  deployReceipt : Nat → Option Receipt
  /-- error of writing `contract_address.txt` -/
  writeFile : Option String
  /-- error of `NewCounter` -/
  newCounter : Option String
  /-- answer of the first `getCount` call; an entry is `none` when it is not a `*big.Int` -/
  getCount : Ret (List (Option Int))
  /-- answer of `client.PendingNonceAt` before the method call -/
  pendingNonce2 : Ret Nat
  /-- answer of `client.SuggestGasPrice` before the method call -/
  suggestGasPrice2 : Ret Int
  /-- error of the `increment` transaction call -/
  increment : Option String
  /-- receipt of the `increment` transaction at each poll -/
  incrementReceipt : Nat → Option Receipt
  /-- answer of the second `getCount` call -/
  getCount2 : Ret (List (Option Int))
  /-- answer of the first `contract.GetCount` of the generated bindings -/
  GetCount : Ret Int
  /-- answer of the second `contract.GetCount` of the generated bindings -/
  GetCount2 : Ret Int
  /-- answer of `client.FilterLogs` -/
  filterLogs : Ret (List Log)
  /-- error of `types.SignTx` -/
  signTx : Option String
  /-- error of `client.SendTransaction` -/
  sendTransaction : Option String
  /-- answer of `client.TransactionByHash`: whether the transaction is pending -/
  transactionByHash : Ret Bool
  /-- answer of `client.TransactionReceipt` -/
  transactionReceipt : Ret Receipt

/-- The lines printed for the results of a `getCount` call (counter_deploy.go 280-286):
nothing for an empty result, the count when the first entry is a `*big.Int`. -/
def sayCount (results : List (Option Int)) (k : Run) : Run :=
  match results with
  | [] => k
  | some count :: _ => Run.say (.count count) k
  | none :: _ => Run.say .countUnparsable k

/-- The receipt test `receipt.Status == 1` shared by all programs: `true` is the success
branch, `false` the failure branch. -/
def statusOk (receipt : Receipt) : Bool := receipt.Status == 1

/-! ## `src/contracts/counter_deploy.go` -/

namespace CounterDeploy

/-- Lines 391-393: the closing lines of `main`. -/
def closing : Run := Run.say .allDone (Run.stop .finished)

/-- Lines 361-383: the loop `for i, vLog := range logs`, entry number `i` first, followed by
the rest `k` of the program.  `vLog.Topics[0]` on an entry without topics is an index out
of range, a runtime panic. -/
def eventLoop (parsedABI : ABI) : Nat → List Log → Run → Run
  | _, [], k => k
  | i, vLog :: rest, k =>
    Run.say (.eventHeader (i + 1) vLog.TxHash) <|
    match vLog.Topics with
    | [] => Run.stop .panicked
    | topic0 :: _ =>
      match EventByID parsedABI topic0 with
      | .error err => Run.say (.eventUnknown err) (eventLoop parsedABI (i + 1) rest k)
      | .ok event =>
        Run.say (.eventName event.Name) <|
        if event.Name = "CountIncremented" then
          match UnpackIntoInterface parsedABI event.Name vLog.Data with
          | .error err => Run.say (.eventDataError err) (eventLoop parsedABI (i + 1) rest k)
          | .ok eventData =>
            Run.say (.eventNewCount eventData.NewCount) (eventLoop parsedABI (i + 1) rest k)
        else eventLoop parsedABI (i + 1) rest k

/-- Lines 325-393: what `main` does with the receipt of the `increment` transaction. -/
def afterIncrement (env : Env) (parsedABI : ABI) (receipt : Receipt) : Run :=
  if statusOk receipt then
    Run.say .incrementSucceeded <|
    match env.getCount2.err with
    | some err => Run.stop (.fatal .getCount err)
    | none =>
      sayCount env.getCount2.val <|
      match env.filterLogs.err with
      | some err => Run.say (.logsUnavailable err) closing
      | none =>
        if env.filterLogs.val.length > 0 then eventLoop parsedABI 0 env.filterLogs.val closing
        else Run.say .noLogs closing
  else Run.say .incrementFailed closing

/-- Lines 288-323: refresh nonce and gas price, call `increment`, wait for the receipt. -/
def incrementCall (fuel : Nat) (env : Env) (auth : TransactOpts) (parsedABI : ABI) : Run :=
  Run.say .incrementing <|
  match env.pendingNonce2.err with
  | some err => Run.stop (.fatal .nonce err)
  | none =>
    let auth := { auth with Nonce := some (int64 env.pendingNonce2.val) }
    match env.suggestGasPrice2.err with
    | some err => Run.stop (.fatal .gasPrice err)
    | none =>
      let gasPrice := env.suggestGasPrice2.val
      let auth := { auth with GasPrice := some gasPrice }
      Run.act (.transact auth "increment") <|
      match env.increment with
      | some err => Run.stop (.fatal .increment err)
      | none =>
        Run.say .incrementSent <|
        match WaitMined Context.Background env.incrementReceipt fuel 0 with
        | none => Run.stop .blocked
        | some (.failed err) => Run.stop (.fatal .waitMined err)
        | some (.mined receipt) => afterIncrement env parsedABI receipt

/-- Lines 243-286: bind the contract and read the counter. -/
def interact (fuel : Nat) (env : Env) (auth : TransactOpts) (parsedABI : ABI) : Run :=
  Run.say .creatingInstance <|
  match env.getCount.err with
  | some err => Run.stop (.fatal .getCount err)
  | none => sayCount env.getCount.val (incrementCall fuel env auth parsedABI)

/-- Lines 229-242: what `main` does with the receipt of the deployment. -/
def afterDeploy (fuel : Nat) (env : Env) (auth : TransactOpts) (parsedABI : ABI)
    (address : Address) (receipt : Receipt) : Run :=
  if statusOk receipt then
    Run.say .deploySucceeded <|
    Run.act (.writeFile "contract_address.txt" address.Hex) <|
    match env.writeFile with
    | some err => Run.say (.addressNotSaved err) (interact fuel env auth parsedABI)
    | none => Run.say .addressSaved (interact fuel env auth parsedABI)
  else Run.say .deployFailed (Run.stop .returned)

/-- Lines 161-225: read the artifacts, deploy, wait for the receipt. -/
def deploy (fuel : Nat) (env : Env) (auth : TransactOpts) : Run :=
  match env.readABI with
  | some err => Run.stop (.fatal .readABI err)
  | none =>
    match env.readBin with
    | some err => Run.stop (.fatal .readBin err)
    | none =>
      match env.parseABI.err with
      | some err => Run.stop (.fatal .parseABI err)
      | none =>
        let parsedABI := env.parseABI.val
        Run.say .deploying <|
        Run.act (.deployContract auth) <|
        match env.deployContract.err with
        | some err => Run.stop (.fatal .deploy err)
        | none =>
          let address := env.deployContract.val
          Run.say (.deployed address) <|
          match WaitMined Context.Background env.deployReceipt fuel 0 with
          | none => Run.stop .blocked
          | some (.failed err) => Run.stop (.fatal .waitMined err)
          | some (.mined receipt) => afterDeploy fuel env auth parsedABI address receipt

/-- Lines 113-159: chain id, transactor, nonce and gas price of the deployment. -/
def prepare (fuel : Nat) (env : Env) : Run :=
  match env.networkID.err with
  | some err => Run.stop (.fatal .chainID err)
  | none =>
    let chainID := env.networkID.val
    match env.newTransactor with
    | some err => Run.stop (.fatal .transactor err)
    | none =>
      let auth : TransactOpts := ⟨chainID, none, none, 0, none⟩
      match env.pendingNonce.err with
      | some err => Run.stop (.fatal .nonce err)
      | none =>
        let auth := { auth with Nonce := some (int64 env.pendingNonce.val) }
        match env.suggestGasPrice.err with
        | some err => Run.stop (.fatal .gasPrice err)
        | none =>
          let gasPrice := env.suggestGasPrice.val
          let gasPrice := gasPrice * 12
          let gasPrice := gasPrice / 10
          let auth := { auth with GasPrice := some gasPrice, GasLimit := 300000, Value := some 0 }
          Run.say (.gasPrice gasPrice) <|
          Run.say (.gasLimit auth.GasLimit) <|
          deploy fuel env auth

/-- The program `main` of counter_deploy.go; `fuel` bounds the polls of each wait. -/
def main (fuel : Nat) (env : Env) : Run :=
  Run.say .banner <|
  match env.dial with
  | some err => Run.stop (.fatal .connect err)
  | none =>
    Run.say .connected <|
    if env.PRIVATE_KEY = "" then Run.say .missingKey (Run.stop .returned)
    else
      match env.hexToECDSA with
      | some err => Run.stop (.fatal .privateKey err)
      | none =>
        if !env.publicKeyOk then Run.stop (.fatal .publicKey "")
        else
          Run.say (.usingAddress env.fromAddress) <|
          match env.balance.err with
          | some err => Run.stop (.fatal .balance err)
          | none =>
            let balance := env.balance.val
            if balance < minBalance then Run.say .lowBalance (Run.stop .returned)
            else prepare fuel env

end CounterDeploy

/-! ## `src/go/main.go` -/

namespace GoMain

/-- Lines 223-225: the loop printing every log entry, followed by the rest `k`. -/
def printLogs : List Log → Run → Run
  | [], k => k
  | vLog :: rest, k => Run.say (.logLine vLog) (printLogs rest k)

/-- Line 231: the closing line of `main`. -/
def closing : Run := Run.say .allDone (Run.stop .finished)

/-- Lines 202-231: what `main` does with the receipt of the `increment` transaction. -/
def afterIncrement (env : Env) (receipt : Receipt) : Run :=
  if statusOk receipt then
    Run.say .incrementSucceeded <|
    match env.GetCount2.err with
    | some err => Run.stop (.fatal .getCount err)
    | none =>
      Run.say (.count env.GetCount2.val) <|
      match env.filterLogs.err with
      | some err => Run.say (.logsUnavailable err) closing
      | none => printLogs env.filterLogs.val closing
  else Run.say .incrementFailed closing

/-- Lines 151-200: create the binding, read the counter, refresh nonce and gas price, call
`Increment`, wait for the receipt. -/
def interact (fuel : Nat) (env : Env) (auth : TransactOpts) : Run :=
  Run.say .creatingInstance <|
  match env.newCounter with
  | some err => Run.stop (.fatal .newCounter err)
  | none =>
    match env.GetCount.err with
    | some err => Run.stop (.fatal .getCount err)
    | none =>
      Run.say (.count env.GetCount.val) <|
      Run.say .incrementing <|
      match env.pendingNonce2.err with
      | some err => Run.stop (.fatal .nonce err)
      | none =>
        let auth := { auth with Nonce := some (int64 env.pendingNonce2.val) }
        match env.suggestGasPrice2.err with
        | some err => Run.stop (.fatal .gasPrice err)
        | none =>
          let gasPrice := env.suggestGasPrice2.val
          let auth := { auth with GasPrice := some gasPrice }
          Run.act (.transact auth "increment") <|
          match env.increment with
          | some err => Run.stop (.fatal .increment err)
          | none =>
            Run.say .incrementSent <|
            match WaitMined Context.Background env.incrementReceipt fuel 0 with
            | none => Run.stop .blocked
            | some (.failed err) => Run.stop (.fatal .waitMined err)
            | some (.mined receipt) => afterIncrement env receipt

/-- Lines 136-149: what `main` does with the receipt of the deployment. -/
def afterDeploy (fuel : Nat) (env : Env) (auth : TransactOpts) (address : Address)
    (receipt : Receipt) : Run :=
  if statusOk receipt then
    Run.say .deploySucceeded <|
    Run.act (.writeFile "contract_address.txt" address.Hex) <|
    match env.writeFile with
    | some err => Run.say (.addressNotSaved err) (interact fuel env auth)
    | none => Run.say .addressSaved (interact fuel env auth)
  else Run.say .deployFailed (Run.stop .returned)

/-- Lines 79-134: chain id, transactor, gas price, artifacts, deployment and the wait. -/
def deploy (fuel : Nat) (env : Env) : Run :=
  match env.networkID.err with
  | some err => Run.stop (.fatal .chainID err)
  | none =>
    let chainID := env.networkID.val
    match env.newTransactor with
    | some err => Run.stop (.fatal .transactor err)
    | none =>
      let auth : TransactOpts := ⟨chainID, none, none, 0, none⟩
      match env.suggestGasPrice.err with
      | some err => Run.stop (.fatal .gasPrice err)
      | none =>
        let gasPrice := env.suggestGasPrice.val
        let gasPrice := gasPrice * 12
        let gasPrice := gasPrice / 10
        let auth := { auth with GasPrice := some gasPrice, GasLimit := 300000 }
        match env.readABI with
        | some err => Run.stop (.fatal .readABI err)
        | none =>
          match env.readBin with
          | some err => Run.stop (.fatal .readBin err)
          | none =>
            Run.say .deploying <|
            Run.act (.deployContract auth) <|
            match env.deployContract.err with
            | some err => Run.stop (.fatal .deploy err)
            | none =>
              let address := env.deployContract.val
              Run.say (.deployed address) <|
              match WaitMined Context.Background env.deployReceipt fuel 0 with
              | none => Run.stop .blocked
              | some (.failed err) => Run.stop (.fatal .waitMined err)
              | some (.mined receipt) => afterDeploy fuel env auth address receipt

/-- The program `main` of main.go; `fuel` bounds the polls of each wait. -/
def main (fuel : Nat) (env : Env) : Run :=
  Run.say .banner <|
  match env.dial with
  | some err => Run.stop (.fatal .connect err)
  | none =>
    Run.say .connected <|
    if env.PRIVATE_KEY = "" then Run.say .missingKey (Run.stop .returned)
    else
      match env.hexToECDSA with
      | some err => Run.stop (.fatal .privateKey err)
      | none =>
        if !env.publicKeyOk then Run.stop (.fatal .publicKey "")
        else
          Run.say (.usingAddress env.fromAddress) <|
          match env.balance.err with
          | some err => Run.stop (.fatal .balance err)
          | none =>
            let balance := env.balance.val
            if balance < minBalance then Run.say .lowBalance (Run.stop .returned)
            else deploy fuel env

end GoMain

/-! ## `src/go/send_transaction.go` -/

namespace SendTransaction

/-- Line 23: the receiving address. -/
def toAddress : Address := ⟨"0xAa1e61Bb5b5f43eF299DB79380790e2e0d4c07fb"⟩

/-- The program `main` of send_transaction.go.  The errors of the four queries are
discarded (`balance, _ := ...`), so the values are used whatever the error; a nil gas price
or chain id is read as zero by `types.NewTransaction` and `types.NewEIP155Signer`, which
is the `val` the environment gives in that case. -/
def main (env : Env) : Run :=
  match env.dial with
  | some err => Run.stop (.fatal .connect err)
  | none =>
    match env.hexToECDSA with
    | some err => Run.stop (.fatal .privateKey err)
    | none =>
      if !env.publicKeyOk then Run.stop .panicked
      else
        Run.say (.sender env.fromAddress) <|
        let balance := env.balance.val
        Run.say (.balance balance) <|
        let nonce := env.pendingNonce.val
        let gasPrice := env.suggestGasPrice.val
        let chainID := env.networkID.val
        let value : Int := 100000000000000
        let tx : Transaction := ⟨nonce, toAddress, value, 21000, gasPrice, []⟩
        Run.act (.signTx tx chainID) <|
        match env.signTx with
        | some err => Run.stop (.fatal .signTx err)
        | none =>
          Run.act (.sendTransaction tx chainID) <|
          match env.sendTransaction with
          | some err => Run.stop (.fatal .send err)
          | none => Run.say .sent (Run.stop .finished)

end SendTransaction

/-! ## `src/go/query_block_Hash.go` -/

namespace QueryBlockHash

/-- The program `main` of query_block_Hash.go. -/
def main (env : Env) : Run :=
  match env.dial with
  | some err => Run.stop (.fatal .connect err)
  | none =>
    match env.transactionByHash.err with
    | some err => Run.stop (.fatal .query err)
    | none =>
      let isPending := env.transactionByHash.val
      Run.say (.pending isPending) <|
      if !isPending then
        match env.transactionReceipt.err with
        | none =>
          let receipt := env.transactionReceipt.val
          Run.say .confirmed <|
          if statusOk receipt then Run.say .statusSuccess (Run.stop .finished)
          else Run.say .statusFailure (Run.stop .finished)
        | some _ => Run.stop .finished
      else Run.stop .finished

end QueryBlockHash

/-! ## Observations on runs and sample environments -/

/-- Whether an effect is a call that builds, signs or submits a transaction. -/
def Effect.isTx : Effect → Bool
  | .deployContract _ => true
  | .transact _ _ => true
  | .signTx _ _ => true
  | .sendTransaction _ _ => true
  | _ => false

/-- The transaction calls of a run, in order. -/
def Run.txs (r : Run) : List Effect := r.effects.filter Effect.isTx

/-- Every call of the deployment programs up to the deployment succeeds (the balance
guard apart). -/
def Env.callsOk (env : Env) : Prop :=
  env.dial = none ∧ env.PRIVATE_KEY ≠ "" ∧ env.hexToECDSA = none ∧ env.publicKeyOk = true ∧
  env.balance.err = none ∧ env.networkID.err = none ∧ env.newTransactor = none ∧
  env.pendingNonce.err = none ∧ env.suggestGasPrice.err = none ∧ env.readABI = none ∧
  env.readBin = none ∧ env.parseABI.err = none

/-- The deployment is sent and mined with a successful receipt, and every call up to the
`increment` call succeeds. -/
def Env.deployedOk (env : Env) (fuel : Nat) : Prop :=
  env.deployContract.err = none ∧
  (∃ receipt, WaitMined Context.Background env.deployReceipt fuel 0 = some (.mined receipt) ∧
    receipt.Status = 1) ∧
  env.newCounter = none ∧ env.getCount.err = none ∧ env.GetCount.err = none ∧
  env.pendingNonce2.err = none ∧ env.suggestGasPrice2.err = none

/-- The event `CountIncremented(uint256 newCount)` with identifier `id`. -/
def countIncremented (id : Hash) : Event :=
  ⟨"CountIncremented", id, [⟨"newCount", .uint256, false⟩]⟩

/-- An environment in which every call succeeds and both receipts are available at the
first poll: balance, pending nonce and suggested gas price (the same at both queries) are
given, so are the interface description, the status of both receipts and the logs. -/
def sampleEnv (balance : Int) (nonce : Nat) (price : Int) (parsedABI : ABI)
    (deployStatus incrementStatus : Nat) (logs : List Log) : Env where
  dial := none
  PRIVATE_KEY := "k"
  hexToECDSA := none
  publicKeyOk := true
  fromAddress := ⟨"0xA"⟩
  balance := ⟨balance, none⟩
  networkID := ⟨11155111, none⟩
  newTransactor := none
  pendingNonce := ⟨nonce, none⟩
  suggestGasPrice := ⟨price, none⟩
  readABI := none
  readBin := none
  parseABI := ⟨parsedABI, none⟩
  deployContract := ⟨⟨"0xC"⟩, none⟩
  deployReceipt := fun _ => some ⟨deployStatus, 1⟩
  writeFile := none
  newCounter := none
  getCount := ⟨[some 0], none⟩
  pendingNonce2 := ⟨nonce + 1, none⟩
  suggestGasPrice2 := ⟨price, none⟩
  increment := none
  incrementReceipt := fun _ => some ⟨incrementStatus, 2⟩
  getCount2 := ⟨[some 1], none⟩
  GetCount := ⟨0, none⟩
  GetCount2 := ⟨1, none⟩
  filterLogs := ⟨logs, none⟩
  signTx := none
  sendTransaction := none
  transactionByHash := ⟨false, none⟩
  transactionReceipt := ⟨⟨incrementStatus, 2⟩, none⟩

/-- The interface description with the single event `CountIncremented`, identifier 77. -/
def sampleABI : ABI := ⟨[countIncremented 77]⟩

/-- A sample run environment: balance 0.002 ETH, nonce 5, suggested price 100, one
`CountIncremented` log carrying 7. -/
def env100 : Env :=
  sampleEnv 2000000000000000 5 100 sampleABI 1 1 [⟨9, [77], encodeUint256 7⟩]


/-- The files a run writes, in order: name and content of every `ioutil.WriteFile` call. -/
def Run.writes (r : Run) : List (String × String) :=
  r.effects.filterMap fun
    | .writeFile name content => some (name, content)
    | _ => none

/-! ## `src/go/query_block_number.go` -/

namespace QueryBlockNumber

/-- The fields of a block's `types.Transaction` the program reads. -/
structure BlockTx where
  Hash : Hash
  Value : Int
  Gas : Nat
  GasPrice : Int
  Nonce : Nat
deriving Repr, DecidableEq

/-- The variables `found` and `position` of `main`. -/
structure Search where
  found : Bool
  position : Int
deriving Repr, DecidableEq

/-- Lines 58-59: `found := false`, `position := 0`. -/
def Search.init : Search := ⟨false, 0⟩

/-- The lines of `main` that report the search. -/
inductive Line where
  | blockFound (n : Nat)
  | target (position : Int) (tx : BlockTx)
  | receipt (status : Bool) (gasUsed : Nat) (txFee : Int)
  | notFound
  | absent
  | elsewhere (blockNumber : Int)
  | done (position : Int)
deriving Repr, DecidableEq

/-- The answers of the node to query_block_number.go. -/
structure BlockEnv where
  /-- error of `ethclient.Dial` -/
  dial : Option String
  /-- answer of `client.BlockByNumber`: the transactions of the block -/
  blockByNumber : Ret (List BlockTx)
  /-- answer of `client.TransactionReceipt` -/
  transactionReceipt : Ret Receipt
  /-- the field `GasUsed` of that receipt -/
  GasUsed : Nat

/-- Lines 61-107: the loop `for i, tx := range block.Transactions()` from index `i` on, on
the variables `s`, with the lines it prints.  The first transaction whose hash is the
target sets `found` and `position = i + 1`, prints the transaction and its receipt (when
the receipt query succeeds) and leaves the loop (`break`). -/
def searchLoop (env : BlockEnv) (txHash : Hash) :
    Nat → List BlockTx → Search → Search × List Line
  | _, [], s => (s, [])
  | i, tx :: rest, s =>
    if tx.Hash = txHash then
      let found := true
      let position : Int := (i : Int) + 1
      (⟨found, position⟩,
        .target position tx ::
          (match env.transactionReceipt.err with
            | none =>
              let receipt := env.transactionReceipt.val
              [.receipt (statusOk receipt) env.GasUsed (tx.GasPrice * int64 env.GasUsed)]
            | some _ => []))
    else searchLoop env txHash (i + 1) rest s

/-- Lines 109-131: the report after the loop. -/
def report (env : BlockEnv) (s : Search) : List Line :=
  if !s.found then
    .notFound ::
      (match env.transactionReceipt.err with
        | some _ => [.absent]
        | none => [.elsewhere env.transactionReceipt.val.BlockNumber])
  else [.done s.position]

/-- The program `main` of query_block_number.go for the target hash `txHash`; the block
number is the non-zero constant of line 22, so the lookup of lines 37-45 is not taken. -/
def main (env : BlockEnv) (txHash : Hash) : List Line × Exit :=
  match env.dial with
  | some err => ([], .fatal .connect err)
  | none =>
    match env.blockByNumber.err with
    | some err => ([], .fatal .query err)
    | none =>
      let transactions := env.blockByNumber.val
      let (s, lines) := searchLoop env txHash 0 transactions Search.init
      (.blockFound transactions.length :: lines ++ report env s, .finished)

end QueryBlockNumber

/-! ## Lemmas on runs -/

theorem txs_stop (e : Exit) : (Run.stop e).txs = [] := rfl

theorem txs_say (m : Msg) (k : Run) : (Run.say m k).txs = k.txs := by
  simp [Run.txs, Run.say, Run.act, Effect.isTx]

theorem txs_act (e : Effect) (k : Run) :
    (Run.act e k).txs = if e.isTx then e :: k.txs else k.txs := by
  simp only [Run.txs, Run.act, List.filter_cons]

theorem txs_sayCount (results : List (Option Int)) (k : Run) :
    (sayCount results k).txs = k.txs := by
  unfold sayCount
  split <;> simp [txs_say]

theorem txs_eventLoop (parsedABI : ABI) (logs : List Log) (i : Nat) (k : Run)
    (hk : k.txs = []) : (CounterDeploy.eventLoop parsedABI i logs k).txs = [] := by
  induction logs generalizing i with
  | nil => simpa [CounterDeploy.eventLoop] using hk
  | cons vLog rest ih =>
    unfold CounterDeploy.eventLoop
    simp only [txs_say]
    split
    · simp [txs_stop]
    · split
      · simp [ih, txs_say]
      · simp only [txs_say]
        split
        · split <;> simp [ih, txs_say]
        · exact ih _

theorem txs_printLogs (logs : List Log) (k : Run) :
    (GoMain.printLogs logs k).txs = k.txs := by
  induction logs with
  | nil => rfl
  | cons vLog rest ih => simp [GoMain.printLogs, ih, txs_say]

theorem txs_closing : CounterDeploy.closing.txs = [] := rfl

theorem txs_closing_main : GoMain.closing.txs = [] := rfl

theorem txs_afterIncrement (env : Env) (parsedABI : ABI) (receipt : Receipt) :
    (CounterDeploy.afterIncrement env parsedABI receipt).txs = [] := by
  unfold CounterDeploy.afterIncrement
  split
  · simp only [txs_say]
    split
    · simp [txs_stop]
    · simp only [txs_sayCount]
      split
      · simp [txs_say, txs_closing]
      · split
        · exact txs_eventLoop _ _ _ _ txs_closing
        · simp [txs_say, txs_closing]
  · simp [txs_say, txs_closing]

theorem txs_afterIncrement_main (env : Env) (receipt : Receipt) :
    (GoMain.afterIncrement env receipt).txs = [] := by
  unfold GoMain.afterIncrement
  split
  · simp only [txs_say]
    split
    · simp [txs_stop]
    · simp only [txs_say]
      split
      · simp [txs_say, txs_closing_main]
      · simp [txs_printLogs, txs_closing_main]
  · simp [txs_say, txs_closing_main]

/-- The calls of the `increment` stage of counter_deploy.go once nonce and gas price are
answered: one `increment` call, with the refreshed nonce and the suggested price. -/
theorem txs_incrementCall (fuel : Nat) (env : Env) (auth : TransactOpts) (parsedABI : ABI)
    (h1 : env.pendingNonce2.err = none) (h2 : env.suggestGasPrice2.err = none) :
    (CounterDeploy.incrementCall fuel env auth parsedABI).txs =
      [.transact { auth with Nonce := some (int64 env.pendingNonce2.val),
                             GasPrice := some env.suggestGasPrice2.val } "increment"] := by
  unfold CounterDeploy.incrementCall
  simp only [h1, h2, txs_say, txs_act, Effect.isTx, if_true]
  congr 1
  split
  · simp [txs_stop]
  · simp only [txs_say]
    split <;> simp [txs_stop, txs_afterIncrement]

/-- The calls of the interaction stage of main.go once its queries are answered. -/
theorem txs_interact_main (fuel : Nat) (env : Env) (auth : TransactOpts)
    (h0 : env.newCounter = none) (h0' : env.GetCount.err = none)
    (h1 : env.pendingNonce2.err = none) (h2 : env.suggestGasPrice2.err = none) :
    (GoMain.interact fuel env auth).txs =
      [.transact { auth with Nonce := some (int64 env.pendingNonce2.val),
                             GasPrice := some env.suggestGasPrice2.val } "increment"] := by
  unfold GoMain.interact
  simp only [h0, h0', h1, h2, txs_say, txs_act, Effect.isTx, if_true]
  congr 1
  split
  · simp [txs_stop]
  · simp only [txs_say]
    split <;> simp [txs_stop, txs_afterIncrement_main]

/-- Integer division by ten rounds down: the quotient of `p * 12` is its floor. -/
theorem floor_twelve_tenths (p : Int) :
    10 * (p * 12 / 10) ≤ p * 12 ∧ p * 12 < 10 * (p * 12 / 10) + 10 := by
  constructor <;> omega

/-! ## Gas price of the deployment -/

/-- Once every call before the deployment succeeds and the balance guard passes, the first
transaction call of counter_deploy.go is the deployment, with these options. -/
theorem head_txs_counterDeploy (fuel : Nat) (env : Env) (hok : env.callsOk)
    (hbal : minBalance ≤ env.balance.val) :
    (CounterDeploy.main fuel env).txs.head? =
      some (.deployContract ⟨env.networkID.val, some (int64 env.pendingNonce.val),
        some (env.suggestGasPrice.val * 12 / 10), 300000, some 0⟩) := by
  obtain ⟨h1, h2, h3, h4, h5, h6, h7, h8, h9, h10, h11, h12⟩ := hok
  simp [CounterDeploy.main, CounterDeploy.prepare, CounterDeploy.deploy, h1, h2, h3, h4, h5, h6,
    h7, h8, h9, h10, h11, h12, not_lt.mpr hbal, Effect.isTx, txs_say, txs_act]

/-- The same for main.go, whose options carry no nonce and no value. -/
theorem head_txs_goMain (fuel : Nat) (env : Env) (hok : env.callsOk)
    (hbal : minBalance ≤ env.balance.val) :
    (GoMain.main fuel env).txs.head? =
      some (.deployContract ⟨env.networkID.val, none,
        some (env.suggestGasPrice.val * 12 / 10), 300000, none⟩) := by
  obtain ⟨h1, h2, h3, h4, h5, h6, h7, h8, h9, h10, h11, h12⟩ := hok
  simp [GoMain.main, GoMain.deploy, h1, h2, h3, h4, h5, h6,
    h7, h8, h9, h10, h11, h12, not_lt.mpr hbal, Effect.isTx, txs_say, txs_act]

theorem callsOk_sampleEnv (balance : Int) (nonce : Nat) (price : Int) (parsedABI : ABI)
    (s1 s2 : Nat) (logs : List Log) :
    (sampleEnv balance nonce price parsedABI s1 s2 logs).callsOk := by
  simp [Env.callsOk, sampleEnv]

/-- C1: for every suggested gas price `p > 0`, the first transaction call of both
deployment programs is the deployment and the gas price in its options is `p * 12 / 10`,
the product by 12 divided by 10 rounding down (the floor of `12 p / 10`); for `p = 100`
it is 120. -/
theorem deploy_gas_price (fuel : Nat) (env : Env) (p : Int) (hp : 0 < p)
    (hprice : env.suggestGasPrice.val = p) (hok : env.callsOk)
    (hbal : minBalance ≤ env.balance.val) :
    (∃ auth, (CounterDeploy.main fuel env).txs.head? = some (.deployContract auth) ∧
      auth.GasPrice = some (p * 12 / 10)) ∧
    (∃ auth, (GoMain.main fuel env).txs.head? = some (.deployContract auth) ∧
      auth.GasPrice = some (p * 12 / 10)) ∧
    (10 * (p * 12 / 10) ≤ p * 12 ∧ p * 12 < 10 * (p * 12 / 10) + 10) ∧
    0 < p * 12 / 10 ∧
    (p = 100 → p * 12 / 10 = 120) := by
  refine ⟨⟨_, head_txs_counterDeploy fuel env hok hbal, by simp [hprice]⟩,
    ⟨_, head_txs_goMain fuel env hok hbal, by simp [hprice]⟩, floor_twelve_tenths p, by omega, ?_⟩
  intro h
  subst h
  decide

/-- Witness of `deploy_gas_price`: the sample environment, suggested price 100. -/
theorem deploy_gas_price_witness :
    (0 : Int) < 100 ∧ env100.suggestGasPrice.val = 100 ∧ env100.callsOk ∧
    minBalance ≤ env100.balance.val ∧
    ((∃ auth, (CounterDeploy.main 1 env100).txs.head? = some (.deployContract auth) ∧
      auth.GasPrice = some (100 * 12 / 10)) ∧
    (∃ auth, (GoMain.main 1 env100).txs.head? = some (.deployContract auth) ∧
      auth.GasPrice = some (100 * 12 / 10)) ∧
    (10 * ((100 : Int) * 12 / 10) ≤ 100 * 12 ∧ (100 : Int) * 12 < 10 * (100 * 12 / 10) + 10) ∧
    (0 : Int) < 100 * 12 / 10 ∧
    ((100 : Int) = 100 → (100 : Int) * 12 / 10 = 120)) :=
  ⟨by decide, rfl, callsOk_sampleEnv _ _ _ _ _ _ _, by decide,
    deploy_gas_price 1 env100 100 (by decide) rfl (callsOk_sampleEnv _ _ _ _ _ _ _) (by decide)⟩

/-! ## Gas price per kind of transaction -/

/-- The transaction calls of a full run of counter_deploy.go: the deployment, then the
`increment` call with the refreshed nonce and the suggested price as returned. -/
theorem txs_counterDeploy (fuel : Nat) (env : Env) (hok : env.callsOk)
    (hbal : minBalance ≤ env.balance.val) (hdep : env.deployedOk fuel) :
    (CounterDeploy.main fuel env).txs =
      [.deployContract ⟨env.networkID.val, some (int64 env.pendingNonce.val),
        some (env.suggestGasPrice.val * 12 / 10), 300000, some 0⟩,
       .transact ⟨env.networkID.val, some (int64 env.pendingNonce2.val),
        some env.suggestGasPrice2.val, 300000, some 0⟩ "increment"] := by
  obtain ⟨h1, h2, h3, h4, h5, h6, h7, h8, h9, h10, h11, h12⟩ := hok
  obtain ⟨d1, ⟨receipt, d2, d3⟩, -, d5, -, d7, d8⟩ := hdep
  have hs : statusOk receipt = true := by simp [statusOk, d3]
  simp only [CounterDeploy.main, CounterDeploy.prepare, CounterDeploy.deploy,
    CounterDeploy.afterDeploy, CounterDeploy.interact, h1, h2, h3, h4, h5, h6,
    h7, h8, h9, h10, h11, h12, d1, d2, d5, hs, not_lt.mpr hbal, Effect.isTx, txs_say, txs_act,
    txs_sayCount, txs_incrementCall fuel env _ _ d7 d8, if_true, if_false, Bool.not_true,
    Bool.false_eq_true]
  split <;> simp [txs_say, txs_sayCount, txs_incrementCall fuel env _ _ d7 d8]

/-- The transaction calls of a full run of main.go. -/
theorem txs_goMain (fuel : Nat) (env : Env) (hok : env.callsOk)
    (hbal : minBalance ≤ env.balance.val) (hdep : env.deployedOk fuel) :
    (GoMain.main fuel env).txs =
      [.deployContract ⟨env.networkID.val, none,
        some (env.suggestGasPrice.val * 12 / 10), 300000, none⟩,
       .transact ⟨env.networkID.val, some (int64 env.pendingNonce2.val),
        some env.suggestGasPrice2.val, 300000, none⟩ "increment"] := by
  obtain ⟨h1, h2, h3, h4, h5, h6, h7, h8, h9, h10, h11, h12⟩ := hok
  obtain ⟨d1, ⟨receipt, d2, d3⟩, d4, -, d6, d7, d8⟩ := hdep
  have hs : statusOk receipt = true := by simp [statusOk, d3]
  simp only [GoMain.main, GoMain.deploy, GoMain.afterDeploy, h1, h2, h3, h4, h5, h6,
    h7, h8, h9, h10, h11, h12, d1, d2, hs, not_lt.mpr hbal, Effect.isTx, txs_say, txs_act,
    if_true, if_false, Bool.not_true, Bool.false_eq_true]
  split <;> simp [txs_say, txs_interact_main fuel env _ d4 d6 d7 d8]

/-- The transaction calls of send_transaction.go start with the signing of the transfer,
built from the answers of the four queries whatever their errors. -/
theorem head_txs_sendTransaction (env : Env) (h1 : env.dial = none)
    (h2 : env.hexToECDSA = none) (h3 : env.publicKeyOk = true) :
    (SendTransaction.main env).txs.head? =
      some (.signTx ⟨env.pendingNonce.val, SendTransaction.toAddress, 100000000000000, 21000,
        env.suggestGasPrice.val, []⟩ env.networkID.val) := by
  simp [SendTransaction.main, h1, h2, h3, Effect.isTx, txs_say, txs_act]

theorem deployedOk_sampleEnv (balance : Int) (nonce : Nat) (price : Int) (parsedABI : ABI)
    (s2 : Nat) (logs : List Log) :
    (sampleEnv balance nonce price parsedABI 1 s2 logs).deployedOk 1 := by
  simp [Env.deployedOk, sampleEnv, WaitMined]

/-- C2, as stated, fails: with a suggested price of 100 at every query the `increment`
call of counter_deploy.go and the transfer of send_transaction.go carry gas price 100,
not `100 * 12 / 10 = 120`. -/
theorem gas_price_not_escalated_everywhere :
    env100.suggestGasPrice2 = ⟨100, none⟩ ∧ env100.suggestGasPrice = ⟨100, none⟩ ∧
    (∃ auth, Effect.transact auth "increment" ∈ (CounterDeploy.main 1 env100).effects ∧
      auth.GasPrice = some 100 ∧ auth.GasPrice ≠ some (100 * 12 / 10)) ∧
    (∃ tx chainID, Effect.sendTransaction tx chainID ∈ (SendTransaction.main env100).effects ∧
      tx.GasPrice = 100 ∧ tx.GasPrice ≠ 100 * 12 / 10) :=
  ⟨rfl, rfl, ⟨⟨11155111, some 6, some 100, 300000, some 0⟩, by decide, rfl, by decide⟩,
    ⟨⟨5, SendTransaction.toAddress, 100000000000000, 21000, 100, []⟩, 11155111,
      by decide, rfl, by decide⟩⟩

/-- C2 amended: only the deployment escalates the price.  In a run in which every call
succeeds, the deployment carries the suggested price times 12 divided by 10 (rounded
down), while the `increment` call and the plain transfer carry the price the node
suggested at that moment, unmodified. -/
theorem gas_price_per_transaction (fuel : Nat) (env : Env) (hok : env.callsOk)
    (hbal : minBalance ≤ env.balance.val) (hdep : env.deployedOk fuel) :
    (∃ deployAuth callAuth,
      (CounterDeploy.main fuel env).txs =
        [.deployContract deployAuth, .transact callAuth "increment"] ∧
      deployAuth.GasPrice = some (env.suggestGasPrice.val * 12 / 10) ∧
      callAuth.GasPrice = some env.suggestGasPrice2.val) ∧
    (∃ deployAuth callAuth,
      (GoMain.main fuel env).txs =
        [.deployContract deployAuth, .transact callAuth "increment"] ∧
      deployAuth.GasPrice = some (env.suggestGasPrice.val * 12 / 10) ∧
      callAuth.GasPrice = some env.suggestGasPrice2.val) ∧
    (∃ tx chainID, (SendTransaction.main env).txs.head? = some (.signTx tx chainID) ∧
      (∀ e ∈ (SendTransaction.main env).txs, e = .signTx tx chainID ∨
        e = .sendTransaction tx chainID) ∧
      tx.GasPrice = env.suggestGasPrice.val) := by
  refine ⟨⟨_, _, txs_counterDeploy fuel env hok hbal hdep, rfl, rfl⟩,
    ⟨_, _, txs_goMain fuel env hok hbal hdep, rfl, rfl⟩,
    ⟨_, _, head_txs_sendTransaction env hok.1 hok.2.2.1 hok.2.2.2.1, ?_, rfl⟩⟩
  obtain ⟨h1, -, h3, h4, -⟩ := hok
  intro e he
  simp only [SendTransaction.main, h1, h3, h4, txs_say, txs_act, Effect.isTx, if_true,
    Bool.not_true, Bool.false_eq_true, if_false] at he
  split at he
  · simp [txs_stop] at he
    exact Or.inl he
  · simp only [txs_act, Effect.isTx, if_true, List.mem_cons] at he
    rcases he with he | he | he
    · exact Or.inl he
    · exact Or.inr he
    · split at he <;> simp [txs_stop, txs_say] at he

/-- Witness of `gas_price_per_transaction`: the sample environment. -/
theorem gas_price_per_transaction_witness :
    env100.callsOk ∧ minBalance ≤ env100.balance.val ∧ env100.deployedOk 1 ∧
    ((∃ deployAuth callAuth,
      (CounterDeploy.main 1 env100).txs =
        [.deployContract deployAuth, .transact callAuth "increment"] ∧
      deployAuth.GasPrice = some (env100.suggestGasPrice.val * 12 / 10) ∧
      callAuth.GasPrice = some env100.suggestGasPrice2.val) ∧
    (∃ deployAuth callAuth,
      (GoMain.main 1 env100).txs =
        [.deployContract deployAuth, .transact callAuth "increment"] ∧
      deployAuth.GasPrice = some (env100.suggestGasPrice.val * 12 / 10) ∧
      callAuth.GasPrice = some env100.suggestGasPrice2.val) ∧
    (∃ tx chainID, (SendTransaction.main env100).txs.head? = some (.signTx tx chainID) ∧
      (∀ e ∈ (SendTransaction.main env100).txs, e = .signTx tx chainID ∨
        e = .sendTransaction tx chainID) ∧
      tx.GasPrice = env100.suggestGasPrice.val)) :=
  ⟨callsOk_sampleEnv _ _ _ _ _ _ _, by decide, deployedOk_sampleEnv _ _ _ _ _ _,
    gas_price_per_transaction 1 env100 (callsOk_sampleEnv _ _ _ _ _ _ _) (by decide)
      (deployedOk_sampleEnv _ _ _ _ _ _)⟩

/-! ## The balance guard -/

theorem effects_stop (e : Exit) : (Run.stop e).effects = [] := rfl

theorem effects_say (m : Msg) (k : Run) : (Run.say m k).effects = .print m :: k.effects := rfl

theorem effects_act (e : Effect) (k : Run) : (Run.act e k).effects = e :: k.effects := rfl

theorem lowBalance_sayCount (results : List (Option Int)) (k : Run)
    (hk : Effect.print .lowBalance ∉ k.effects) :
    Effect.print .lowBalance ∉ (sayCount results k).effects := by
  unfold sayCount
  split <;> simp [effects_say, hk]

theorem lowBalance_eventLoop (parsedABI : ABI) (logs : List Log) (i : Nat) (k : Run)
    (hk : Effect.print .lowBalance ∉ k.effects) :
    Effect.print .lowBalance ∉ (CounterDeploy.eventLoop parsedABI i logs k).effects := by
  induction logs generalizing i with
  | nil => simpa [CounterDeploy.eventLoop] using hk
  | cons vLog rest ih =>
    unfold CounterDeploy.eventLoop
    repeat' split
    all_goals simp [effects_say, effects_stop, ih]

theorem lowBalance_printLogs (logs : List Log) (k : Run)
    (hk : Effect.print .lowBalance ∉ k.effects) :
    Effect.print .lowBalance ∉ (GoMain.printLogs logs k).effects := by
  induction logs with
  | nil => simpa [GoMain.printLogs] using hk
  | cons vLog rest ih => simp [GoMain.printLogs, effects_say, ih]

theorem lowBalance_closing : Effect.print .lowBalance ∉ CounterDeploy.closing.effects := by
  decide

theorem lowBalance_closing_main : Effect.print .lowBalance ∉ GoMain.closing.effects := by
  decide

theorem lowBalance_afterIncrement (env : Env) (parsedABI : ABI) (receipt : Receipt) :
    Effect.print .lowBalance ∉
      (CounterDeploy.afterIncrement env parsedABI receipt).effects := by
  unfold CounterDeploy.afterIncrement
  split
  · simp only [effects_say, List.mem_cons, not_or]
    refine ⟨by simp, ?_⟩
    split
    · simp [effects_stop]
    · apply lowBalance_sayCount
      split
      · simp [effects_say, lowBalance_closing]
      · split
        · exact lowBalance_eventLoop _ _ _ _ lowBalance_closing
        · simp [effects_say, lowBalance_closing]
  · simp [effects_say, lowBalance_closing]

theorem lowBalance_afterIncrement_main (env : Env) (receipt : Receipt) :
    Effect.print .lowBalance ∉ (GoMain.afterIncrement env receipt).effects := by
  unfold GoMain.afterIncrement
  split
  · simp only [effects_say, List.mem_cons, not_or]
    refine ⟨by simp, ?_⟩
    split
    · simp [effects_stop]
    · simp only [effects_say, List.mem_cons, not_or]
      refine ⟨by simp, ?_⟩
      split
      · simp [effects_say, lowBalance_closing_main]
      · exact lowBalance_printLogs _ _ lowBalance_closing_main
  · simp [effects_say, lowBalance_closing_main]

theorem lowBalance_incrementCall (fuel : Nat) (env : Env) (auth : TransactOpts)
    (parsedABI : ABI) :
    Effect.print .lowBalance ∉
      (CounterDeploy.incrementCall fuel env auth parsedABI).effects := by
  unfold CounterDeploy.incrementCall
  repeat' split
  all_goals simp [effects_say, effects_act, effects_stop, lowBalance_afterIncrement]

theorem lowBalance_interact (fuel : Nat) (env : Env) (auth : TransactOpts)
    (parsedABI : ABI) :
    Effect.print .lowBalance ∉ (CounterDeploy.interact fuel env auth parsedABI).effects := by
  unfold CounterDeploy.interact
  simp only [effects_say, List.mem_cons, not_or]
  refine ⟨by simp, ?_⟩
  split
  · simp [effects_stop]
  · exact lowBalance_sayCount _ _ (lowBalance_incrementCall _ _ _ _)

theorem lowBalance_interact_main (fuel : Nat) (env : Env) (auth : TransactOpts) :
    Effect.print .lowBalance ∉ (GoMain.interact fuel env auth).effects := by
  unfold GoMain.interact
  repeat' split
  all_goals simp [effects_say, effects_act, effects_stop, lowBalance_afterIncrement_main]

theorem lowBalance_prepare (fuel : Nat) (env : Env) :
    Effect.print .lowBalance ∉ (CounterDeploy.prepare fuel env).effects := by
  unfold CounterDeploy.prepare CounterDeploy.deploy CounterDeploy.afterDeploy
  repeat' split
  all_goals simp [effects_say, effects_act, effects_stop, lowBalance_interact]

theorem lowBalance_deploy_main (fuel : Nat) (env : Env) :
    Effect.print .lowBalance ∉ (GoMain.deploy fuel env).effects := by
  unfold GoMain.deploy GoMain.afterDeploy
  repeat' split
  all_goals simp [effects_say, effects_act, effects_stop, lowBalance_interact_main]

theorem exit_say (m : Msg) (k : Run) : (Run.say m k).exit = k.exit := rfl

theorem exit_act (e : Effect) (k : Run) : (Run.act e k).exit = k.exit := rfl

theorem exit_stop (e : Exit) : (Run.stop e).exit = e := rfl

/-- Below the threshold both deployment programs print the low-balance notice and return:
the whole run is these four lines. -/
theorem guard_stops (fuel : Nat) (env : Env) (hok : env.callsOk)
    (hlt : env.balance.val < minBalance) :
    CounterDeploy.main fuel env =
      ⟨[.print .banner, .print .connected, .print (.usingAddress env.fromAddress),
        .print .lowBalance], .returned⟩ ∧
    GoMain.main fuel env =
      ⟨[.print .banner, .print .connected, .print (.usingAddress env.fromAddress),
        .print .lowBalance], .returned⟩ := by
  obtain ⟨h1, h2, h3, h4, h5, -⟩ := hok
  simp [CounterDeploy.main, GoMain.main, h1, h2, h3, h4, h5, hlt, Run.say, Run.act, Run.stop]

/-- At or above the threshold neither deployment program prints the low-balance notice. -/
theorem guard_passes (fuel : Nat) (env : Env) (hok : env.callsOk)
    (hbal : minBalance ≤ env.balance.val) :
    Effect.print .lowBalance ∉ (CounterDeploy.main fuel env).effects ∧
    Effect.print .lowBalance ∉ (GoMain.main fuel env).effects := by
  obtain ⟨h1, h2, h3, h4, h5, -⟩ := hok
  simp [CounterDeploy.main, GoMain.main, h1, h2, h3, h4, h5, not_lt.mpr hbal, effects_say,
    lowBalance_prepare, lowBalance_deploy_main]

/-- C3, as stated, fails.  Balance 0.001 ETH with gas limit 300000 at adjusted price
12 gwei (cost 0.0036 ETH) is below value plus fees, yet the deployment is sent; balance
0.0005 ETH at adjusted price 1.2 gwei (cost 0.00036 ETH) covers value plus fees, yet the
run stops with the low-balance notice; and the transfer is signed and sent from balance 0. -/
theorem balance_guard_ignores_cost :
    ((1000000000000000 : Int) < 0 + 300000 * (10000000000 * 12 / 10) ∧
      (CounterDeploy.main 1 (sampleEnv 1000000000000000 5 10000000000 sampleABI 1 1 [])).txs.head?
        = some (.deployContract ⟨11155111, some 5, some 12000000000, 300000, some 0⟩)) ∧
    ((0 : Int) + 300000 * (1000000000 * 12 / 10) ≤ 500000000000000 ∧
      CounterDeploy.main 1 (sampleEnv 500000000000000 5 1000000000 sampleABI 1 1 []) =
        ⟨[.print .banner, .print .connected, .print (.usingAddress ⟨"0xA"⟩),
          .print .lowBalance], .returned⟩) ∧
    ((0 : Int) < 100000000000000 + 21000 * 100 ∧
      (SendTransaction.main (sampleEnv 0 5 100 sampleABI 1 1 [])).txs =
        [.signTx ⟨5, SendTransaction.toAddress, 100000000000000, 21000, 100, []⟩ 11155111,
         .sendTransaction ⟨5, SendTransaction.toAddress, 100000000000000, 21000, 100, []⟩
           11155111]) :=
  ⟨⟨by decide, by decide⟩, ⟨by decide, by decide⟩, ⟨by decide, by decide⟩⟩

/-- C3 amended: the guard of the deployment programs compares the balance with the fixed
threshold of 1,000,000,000,000,000 wei, whatever value, gas limit and gas price are.
Below it the run stops with the low-balance notice and no transaction call; at or above
it the notice is not printed and the deployment is the first transaction call.  The
transfer program has no guard: its transaction calls do not depend on the balance. -/
theorem balance_guard_threshold (fuel : Nat) (env : Env) (hok : env.callsOk) :
    (env.balance.val < 1000000000000000 →
      ((CounterDeploy.main fuel env).exit = .returned ∧ (CounterDeploy.main fuel env).txs = [] ∧
        Effect.print .lowBalance ∈ (CounterDeploy.main fuel env).effects) ∧
      ((GoMain.main fuel env).exit = .returned ∧ (GoMain.main fuel env).txs = [] ∧
        Effect.print .lowBalance ∈ (GoMain.main fuel env).effects)) ∧
    (1000000000000000 ≤ env.balance.val →
      (Effect.print .lowBalance ∉ (CounterDeploy.main fuel env).effects ∧
        ∃ auth, (CounterDeploy.main fuel env).txs.head? = some (.deployContract auth)) ∧
      (Effect.print .lowBalance ∉ (GoMain.main fuel env).effects ∧
        ∃ auth, (GoMain.main fuel env).txs.head? = some (.deployContract auth))) ∧
    (∀ b : Ret Int, (SendTransaction.main { env with balance := b }).txs =
        (SendTransaction.main env).txs ∧
      (SendTransaction.main { env with balance := b }).exit = (SendTransaction.main env).exit) := by
  refine ⟨fun hlt => ?_, fun hbal => ?_, fun b => ?_⟩
  · obtain ⟨e1, e2⟩ := guard_stops fuel env hok hlt
    rw [e1, e2]
    simp [Run.txs, Effect.isTx]
  · exact ⟨⟨(guard_passes fuel env hok hbal).1, _, head_txs_counterDeploy fuel env hok hbal⟩,
      ⟨(guard_passes fuel env hok hbal).2, _, head_txs_goMain fuel env hok hbal⟩⟩
  · obtain ⟨h1, -, h3, h4, -⟩ := hok
    constructor
    · simp only [SendTransaction.main, h1, h3, h4, txs_say, txs_act, Bool.not_true,
        Bool.false_eq_true, if_false]
    · simp only [SendTransaction.main, h1, h3, h4, exit_say, exit_act, Bool.not_true,
        Bool.false_eq_true, if_false]

/-- Witness of `balance_guard_threshold`: the sample environment. -/
theorem balance_guard_threshold_witness :
    env100.callsOk ∧
    ((env100.balance.val < 1000000000000000 →
      ((CounterDeploy.main 1 env100).exit = .returned ∧ (CounterDeploy.main 1 env100).txs = [] ∧
        Effect.print .lowBalance ∈ (CounterDeploy.main 1 env100).effects) ∧
      ((GoMain.main 1 env100).exit = .returned ∧ (GoMain.main 1 env100).txs = [] ∧
        Effect.print .lowBalance ∈ (GoMain.main 1 env100).effects)) ∧
    (1000000000000000 ≤ env100.balance.val →
      (Effect.print .lowBalance ∉ (CounterDeploy.main 1 env100).effects ∧
        ∃ auth, (CounterDeploy.main 1 env100).txs.head? = some (.deployContract auth)) ∧
      (Effect.print .lowBalance ∉ (GoMain.main 1 env100).effects ∧
        ∃ auth, (GoMain.main 1 env100).txs.head? = some (.deployContract auth))) ∧
    (∀ b : Ret Int, (SendTransaction.main { env100 with balance := b }).txs =
        (SendTransaction.main env100).txs ∧
      (SendTransaction.main { env100 with balance := b }).exit =
        (SendTransaction.main env100).exit)) :=
  ⟨callsOk_sampleEnv _ _ _ _ _ _ _,
    balance_guard_threshold 1 env100 (callsOk_sampleEnv _ _ _ _ _ _ _)⟩

/-! ## The two balances of the deployment example -/

/-- C4: in both deployment programs (gas limit 300000, value 0) an account holding
2,000,000,000,000,000 wei passes the balance guard and the deployment is the first
transaction call, and an account holding 500,000,000,000,000 wei is stopped at the guard:
the run returns after the low-balance notice with no transaction call. -/
theorem deployment_balance_examples (fuel : Nat) (env : Env) (hok : env.callsOk) :
    (Effect.print .lowBalance ∉
        (CounterDeploy.main fuel { env with balance := ⟨2000000000000000, none⟩ }).effects ∧
      ∃ auth, (CounterDeploy.main fuel { env with balance := ⟨2000000000000000, none⟩ }).txs.head?
          = some (.deployContract auth) ∧ auth.GasLimit = 300000 ∧ auth.Value = some 0) ∧
    (Effect.print .lowBalance ∉
        (GoMain.main fuel { env with balance := ⟨2000000000000000, none⟩ }).effects ∧
      ∃ auth, (GoMain.main fuel { env with balance := ⟨2000000000000000, none⟩ }).txs.head?
          = some (.deployContract auth) ∧ auth.GasLimit = 300000 ∧ auth.Value = none) ∧
    ((CounterDeploy.main fuel { env with balance := ⟨500000000000000, none⟩ }).exit = .returned ∧
      (CounterDeploy.main fuel { env with balance := ⟨500000000000000, none⟩ }).txs = [] ∧
      Effect.print .lowBalance ∈
        (CounterDeploy.main fuel { env with balance := ⟨500000000000000, none⟩ }).effects) ∧
    ((GoMain.main fuel { env with balance := ⟨500000000000000, none⟩ }).exit = .returned ∧
      (GoMain.main fuel { env with balance := ⟨500000000000000, none⟩ }).txs = [] ∧
      Effect.print .lowBalance ∈
        (GoMain.main fuel { env with balance := ⟨500000000000000, none⟩ }).effects) := by
  have hok1 : Env.callsOk { env with balance := ⟨2000000000000000, none⟩ } := by
    obtain ⟨h1, h2, h3, h4, -, h6⟩ := hok
    exact ⟨h1, h2, h3, h4, rfl, h6⟩
  have hok2 : Env.callsOk { env with balance := ⟨500000000000000, none⟩ } := by
    obtain ⟨h1, h2, h3, h4, -, h6⟩ := hok
    exact ⟨h1, h2, h3, h4, rfl, h6⟩
  have hge : minBalance ≤
      (({ env with balance := ⟨2000000000000000, none⟩ } : Env)).balance.val := by
    show minBalance ≤ (2000000000000000 : Int)
    decide
  have hlt : (({ env with balance := ⟨500000000000000, none⟩ } : Env)).balance.val <
      minBalance := by
    show (500000000000000 : Int) < minBalance
    decide
  obtain ⟨e1, e2⟩ := guard_stops fuel _ hok2 hlt
  refine ⟨⟨(guard_passes fuel _ hok1 hge).1, _, head_txs_counterDeploy fuel _ hok1 hge, rfl, rfl⟩,
    ⟨(guard_passes fuel _ hok1 hge).2, _, head_txs_goMain fuel _ hok1 hge, rfl, rfl⟩, ?_, ?_⟩
  · rw [e1]
    simp [Run.txs, Effect.isTx]
  · rw [e2]
    simp [Run.txs, Effect.isTx]

/-- Witness of `deployment_balance_examples`: the sample environment. -/
theorem deployment_balance_examples_witness :
    env100.callsOk ∧
    ((Effect.print .lowBalance ∉
        (CounterDeploy.main 1 { env100 with balance := ⟨2000000000000000, none⟩ }).effects ∧
      ∃ auth, (CounterDeploy.main 1 { env100 with balance := ⟨2000000000000000, none⟩ }).txs.head?
          = some (.deployContract auth) ∧ auth.GasLimit = 300000 ∧ auth.Value = some 0) ∧
    (Effect.print .lowBalance ∉
        (GoMain.main 1 { env100 with balance := ⟨2000000000000000, none⟩ }).effects ∧
      ∃ auth, (GoMain.main 1 { env100 with balance := ⟨2000000000000000, none⟩ }).txs.head?
          = some (.deployContract auth) ∧ auth.GasLimit = 300000 ∧ auth.Value = none) ∧
    ((CounterDeploy.main 1 { env100 with balance := ⟨500000000000000, none⟩ }).exit = .returned ∧
      (CounterDeploy.main 1 { env100 with balance := ⟨500000000000000, none⟩ }).txs = [] ∧
      Effect.print .lowBalance ∈
        (CounterDeploy.main 1 { env100 with balance := ⟨500000000000000, none⟩ }).effects) ∧
    ((GoMain.main 1 { env100 with balance := ⟨500000000000000, none⟩ }).exit = .returned ∧
      (GoMain.main 1 { env100 with balance := ⟨500000000000000, none⟩ }).txs = [] ∧
      Effect.print .lowBalance ∈
        (GoMain.main 1 { env100 with balance := ⟨500000000000000, none⟩ }).effects)) :=
  ⟨callsOk_sampleEnv _ _ _ _ _ _ _,
    deployment_balance_examples 1 env100 (callsOk_sampleEnv _ _ _ _ _ _ _)⟩

/-! ## The nonce -/

/-- Below `2 ^ 63` the conversion `int64` keeps the value. -/
theorem int64_of_lt (n : Nat) (h : n < 2 ^ 63) : int64 n = (n : Int) := by
  unfold int64
  have h1 : n % 2 ^ 64 = n := Nat.mod_eq_of_lt (by omega)
  rw [h1, if_pos h]

/-- From `2 ^ 63` on, within `uint64`, the conversion `int64` yields `n - 2 ^ 64`, a
negative number. -/
theorem int64_of_ge (n : Nat) (h1 : 2 ^ 63 ≤ n) (h2 : n < 2 ^ 64) :
    int64 n = (n : Int) - 2 ^ 64 ∧ int64 n < 0 := by
  unfold int64
  have h3 : n % 2 ^ 64 = n := Nat.mod_eq_of_lt h2
  rw [h3, if_neg (by omega)]
  constructor
  · rfl
  · have : (n : Int) < 2 ^ 64 := by exact_mod_cast h2
    omega

/-- Pending counts below `2 ^ 63` reach the transaction options unmodified in both calls of
counter_deploy.go; the transfer passes the count to `NewTransaction` as it is. -/
theorem nonce_unmodified_below (fuel : Nat) (env : Env) (hok : env.callsOk)
    (hbal : minBalance ≤ env.balance.val) (hdep : env.deployedOk fuel)
    (h1 : env.pendingNonce.val < 2 ^ 63) (h2 : env.pendingNonce2.val < 2 ^ 63) :
    (∃ deployAuth callAuth,
      (CounterDeploy.main fuel env).txs =
        [.deployContract deployAuth, .transact callAuth "increment"] ∧
      deployAuth.Nonce = some (env.pendingNonce.val : Int) ∧
      callAuth.Nonce = some (env.pendingNonce2.val : Int)) ∧
    (∃ tx chainID, (SendTransaction.main env).txs.head? = some (.signTx tx chainID) ∧
      tx.Nonce = env.pendingNonce.val) :=
  ⟨⟨_, _, txs_counterDeploy fuel env hok hbal hdep, by rw [int64_of_lt _ h1],
    by rw [int64_of_lt _ h2]⟩,
   ⟨_, _, head_txs_sendTransaction env hok.1 hok.2.2.1 hok.2.2.2.1, rfl⟩⟩

/-- C5, failing input: the node reports the pending count
`2 ^ 64 - 2 = 18446744073709551614` (a `uint64`).  The deployment of counter_deploy.go is
called with nonce `-2` in its options, not with the count the node returned. -/
theorem nonce_wraps_at_int64 :
    (sampleEnv 2000000000000000 18446744073709551614 100 sampleABI 1 1 []).pendingNonce =
      ⟨18446744073709551614, none⟩ ∧
    (CounterDeploy.main 1
        (sampleEnv 2000000000000000 18446744073709551614 100 sampleABI 1 1 [])).txs.head? =
      some (.deployContract ⟨11155111, some (-2), some 120, 300000, some 0⟩) ∧
    (-2 : Int) ≠ ((18446744073709551614 : Nat) : Int) :=
  ⟨rfl, by decide, by decide⟩

/-! ## Receipt status -/

/-- The run of counter_deploy.go whose deployment receipt does not have status 1. -/
theorem counterDeploy_failed_receipt (fuel : Nat) (env : Env) (receipt : Receipt)
    (hok : env.callsOk) (hbal : minBalance ≤ env.balance.val)
    (hsent : env.deployContract.err = none)
    (hwait : WaitMined Context.Background env.deployReceipt fuel 0 = some (.mined receipt))
    (hs : receipt.Status ≠ 1) :
    CounterDeploy.main fuel env =
      ⟨[.print .banner, .print .connected, .print (.usingAddress env.fromAddress),
        .print (.gasPrice (env.suggestGasPrice.val * 12 / 10)), .print (.gasLimit 300000),
        .print .deploying,
        .deployContract ⟨env.networkID.val, some (int64 env.pendingNonce.val),
          some (env.suggestGasPrice.val * 12 / 10), 300000, some 0⟩,
        .print (.deployed env.deployContract.val), .print .deployFailed], .returned⟩ := by
  obtain ⟨h1, h2, h3, h4, h5, h6, h7, h8, h9, h10, h11, h12⟩ := hok
  have hs' : statusOk receipt = false := by simp [statusOk, hs]
  simp [CounterDeploy.main, CounterDeploy.prepare, CounterDeploy.deploy,
    CounterDeploy.afterDeploy, h1, h2, h3, h4, h5, h6, h7, h8, h9, h10, h11, h12, hsent, hwait,
    hs', not_lt.mpr hbal, Run.say, Run.act, Run.stop]

/-- The run of main.go whose deployment receipt does not have status 1. -/
theorem goMain_failed_receipt (fuel : Nat) (env : Env) (receipt : Receipt)
    (hok : env.callsOk) (hbal : minBalance ≤ env.balance.val)
    (hsent : env.deployContract.err = none)
    (hwait : WaitMined Context.Background env.deployReceipt fuel 0 = some (.mined receipt))
    (hs : receipt.Status ≠ 1) :
    GoMain.main fuel env =
      ⟨[.print .banner, .print .connected, .print (.usingAddress env.fromAddress),
        .print .deploying,
        .deployContract ⟨env.networkID.val, none,
          some (env.suggestGasPrice.val * 12 / 10), 300000, none⟩,
        .print (.deployed env.deployContract.val), .print .deployFailed], .returned⟩ := by
  obtain ⟨h1, h2, h3, h4, h5, h6, h7, h8, h9, h10, h11, h12⟩ := hok
  have hs' : statusOk receipt = false := by simp [statusOk, hs]
  simp [GoMain.main, GoMain.deploy, GoMain.afterDeploy, h1, h2, h3, h4, h5, h6, h7, h8, h9,
    h10, h11, h12, hsent, hwait, hs', not_lt.mpr hbal, Run.say, Run.act, Run.stop]

/-- With a deployment receipt of status 1 both programs report success and write the
address file. -/
theorem succeeded_receipt (fuel : Nat) (env : Env) (receipt : Receipt)
    (hok : env.callsOk) (hbal : minBalance ≤ env.balance.val)
    (hsent : env.deployContract.err = none)
    (hwait : WaitMined Context.Background env.deployReceipt fuel 0 = some (.mined receipt))
    (hs : receipt.Status = 1) :
    Effect.print .deploySucceeded ∈ (CounterDeploy.main fuel env).effects ∧
    Effect.print .deploySucceeded ∈ (GoMain.main fuel env).effects := by
  obtain ⟨h1, h2, h3, h4, h5, h6, h7, h8, h9, h10, h11, h12⟩ := hok
  have hs' : statusOk receipt = true := by simp [statusOk, hs]
  constructor
  · simp [CounterDeploy.main, CounterDeploy.prepare, CounterDeploy.deploy,
      CounterDeploy.afterDeploy, h1, h2, h3, h4, h5, h6, h7, h8, h9, h10, h11, h12, hsent, hwait,
      hs', not_lt.mpr hbal, effects_say, effects_act]
  · simp [GoMain.main, GoMain.deploy, GoMain.afterDeploy, h1, h2, h3, h4, h5, h6, h7, h8, h9,
      h10, h11, h12, hsent, hwait, hs', not_lt.mpr hbal, effects_say, effects_act]

/-- C6: the receipt of a mined transaction is classified by the test `Status == 1` alone.
The deployment counts as succeeded exactly when the flag is 1 and as failed when it is 0
(or any other value); each program takes this decision once, on the receipt the wait
returned.  On a failed deployment receipt both deployment programs print the failure and
return, their only transaction call being the deployment: no `increment` call is made.
The receipt of the `increment` call and the receipt shown by query_block_Hash.go are
classified by the same test. -/
theorem receipt_status_classification (fuel : Nat) (env : Env) (receipt : Receipt)
    (hok : env.callsOk) (hbal : minBalance ≤ env.balance.val)
    (hsent : env.deployContract.err = none)
    (hwait : WaitMined Context.Background env.deployReceipt fuel 0 = some (.mined receipt)) :
    (statusOk receipt = true ↔ receipt.Status = 1) ∧
    (receipt.Status = 0 → statusOk receipt = false) ∧
    (Effect.print .deploySucceeded ∈ (CounterDeploy.main fuel env).effects ↔
      receipt.Status = 1) ∧
    (Effect.print .deploySucceeded ∈ (GoMain.main fuel env).effects ↔ receipt.Status = 1) ∧
    (receipt.Status ≠ 1 →
      (CounterDeploy.main fuel env).exit = .returned ∧
      (CounterDeploy.main fuel env).effects.getLast? = some (.print .deployFailed) ∧
      (∃ auth, (CounterDeploy.main fuel env).txs = [.deployContract auth]) ∧
      (GoMain.main fuel env).exit = .returned ∧
      (GoMain.main fuel env).effects.getLast? = some (.print .deployFailed) ∧
      (∃ auth, (GoMain.main fuel env).txs = [.deployContract auth])) ∧
    (∀ (parsedABI : ABI) (r : Receipt),
      (CounterDeploy.afterIncrement env parsedABI r).effects.head? =
        some (.print (if r.Status = 1 then .incrementSucceeded else .incrementFailed)) ∧
      (GoMain.afterIncrement env r).effects.head? =
        some (.print (if r.Status = 1 then .incrementSucceeded else .incrementFailed))) ∧
    (∀ q : Env, q.dial = none → q.transactionByHash = ⟨false, none⟩ →
      q.transactionReceipt.err = none →
      QueryBlockHash.main q =
        ⟨[.print (.pending false), .print .confirmed,
          .print (if q.transactionReceipt.val.Status = 1 then .statusSuccess
            else .statusFailure)], .finished⟩) := by
  have hiff : statusOk receipt = true ↔ receipt.Status = 1 := by simp [statusOk]
  refine ⟨hiff, fun h0 => by simp [statusOk, h0], ?_, ?_, ?_, ?_, ?_⟩
  · constructor
    · intro hmem
      by_contra hs
      rw [counterDeploy_failed_receipt fuel env receipt hok hbal hsent hwait hs] at hmem
      simp at hmem
    · exact fun hs => (succeeded_receipt fuel env receipt hok hbal hsent hwait hs).1
  · constructor
    · intro hmem
      by_contra hs
      rw [goMain_failed_receipt fuel env receipt hok hbal hsent hwait hs] at hmem
      simp at hmem
    · exact fun hs => (succeeded_receipt fuel env receipt hok hbal hsent hwait hs).2
  · intro hs
    rw [counterDeploy_failed_receipt fuel env receipt hok hbal hsent hwait hs,
      goMain_failed_receipt fuel env receipt hok hbal hsent hwait hs]
    simp [Run.txs, Effect.isTx]
  · intro parsedABI r
    by_cases hr : r.Status = 1
    · simp [CounterDeploy.afterIncrement, GoMain.afterIncrement, statusOk, hr, effects_say]
    · simp [CounterDeploy.afterIncrement, GoMain.afterIncrement, statusOk, hr, effects_say]
  · intro q h1 h2 h3
    by_cases hr : q.transactionReceipt.val.Status = 1
    · simp [QueryBlockHash.main, h1, h2, h3, statusOk, hr, Run.say, Run.act, Run.stop]
    · simp [QueryBlockHash.main, h1, h2, h3, statusOk, hr, Run.say, Run.act, Run.stop]

/-- Witness of `receipt_status_classification`: a sample environment whose deployment
receipt has status 0. -/
theorem receipt_status_classification_witness :
    (sampleEnv 2000000000000000 5 100 sampleABI 0 1 []).callsOk ∧
    minBalance ≤ (sampleEnv 2000000000000000 5 100 sampleABI 0 1 []).balance.val ∧
    (sampleEnv 2000000000000000 5 100 sampleABI 0 1 []).deployContract.err = none ∧
    WaitMined Context.Background
      (sampleEnv 2000000000000000 5 100 sampleABI 0 1 []).deployReceipt 1 0 =
        some (.mined ⟨0, 1⟩) ∧
    (CounterDeploy.main 1 (sampleEnv 2000000000000000 5 100 sampleABI 0 1 [])).exit = .returned ∧
    (∃ auth, (CounterDeploy.main 1 (sampleEnv 2000000000000000 5 100 sampleABI 0 1 [])).txs =
      [.deployContract auth]) :=
  ⟨callsOk_sampleEnv _ _ _ _ _ _ _, by decide, rfl, rfl,
    ((receipt_status_classification 1 (sampleEnv 2000000000000000 5 100 sampleABI 0 1 []) ⟨0, 1⟩
      (callsOk_sampleEnv _ _ _ _ _ _ _) (by decide) rfl rfl).2.2.2.2.1 (by decide)).1,
    ((receipt_status_classification 1 (sampleEnv 2000000000000000 5 100 sampleABI 0 1 []) ⟨0, 1⟩
      (callsOk_sampleEnv _ _ _ _ _ _ _) (by decide) rfl rfl).2.2.2.2.1 (by decide)).2.2.1⟩

/-! ## The confirmation wait -/

/-- With the background context the wait never returns an error. -/
theorem waitMined_background_not_failed (receiptAt : Nat → Option Receipt) (fuel k : Nat)
    (err : String) :
    WaitMined Context.Background receiptAt fuel k ≠ some (.failed err) := by
  induction fuel generalizing k with
  | zero => simp [WaitMined]
  | succ n ih =>
    unfold WaitMined
    cases h : receiptAt k with
    | some receipt => simp
    | none => simpa [Context.Background] using ih (k + 1)

/-- While the node has no receipt, the wait with the background context has not returned. -/
theorem waitMined_background_pending (receiptAt : Nat → Option Receipt) (fuel k : Nat)
    (hnone : ∀ j, k ≤ j → j < k + fuel → receiptAt j = none) :
    WaitMined Context.Background receiptAt fuel k = none := by
  induction fuel generalizing k with
  | zero => rfl
  | succ n ih =>
    unfold WaitMined
    rw [hnone k (le_refl k) (by omega)]
    simp only [Context.Background]
    exact ih (k + 1) (fun j h1 h2 => hnone j (by omega) (by omega))

/-- The wait with the background context returns the first receipt the node has. -/
theorem waitMined_background_first (receiptAt : Nat → Option Receipt) (d fuel k : Nat)
    (receipt : Receipt) (hsome : receiptAt (k + d) = some receipt)
    (hnone : ∀ j, j < d → receiptAt (k + j) = none) (hfuel : d < fuel) :
    WaitMined Context.Background receiptAt fuel k = some (.mined receipt) := by
  induction d generalizing fuel k with
  | zero =>
    obtain ⟨n, rfl⟩ : ∃ n, fuel = n + 1 := ⟨fuel - 1, by omega⟩
    unfold WaitMined
    rw [show receiptAt k = some receipt from hsome]
  | succ d ih =>
    obtain ⟨n, rfl⟩ : ∃ n, fuel = n + 1 := ⟨fuel - 1, by omega⟩
    unfold WaitMined
    have h0 : receiptAt k = none := hnone 0 (by omega)
    rw [h0]
    simp only [Context.Background]
    refine ih n (k + 1) ?_ ?_ (by omega)
    · rw [show k + 1 + d = k + (d + 1) by omega]
      exact hsome
    · intro j hj
      rw [show k + 1 + j = k + (j + 1) by omega]
      exact hnone (j + 1) (by omega)

/-- C7, as stated, fails: against a node that never returns a receipt the wait, called
with the background context, has not returned after any number of polls, and the run of
counter_deploy.go is still blocked in it. -/
theorem wait_blocks_without_receipt :
    (¬ ∃ fuel, (WaitMined Context.Background (fun _ => none) fuel 0).isSome = true) ∧
    (¬ ∃ fuel, (CounterDeploy.main fuel { env100 with deployReceipt := fun _ => none }).exit ≠
      .blocked) := by
  have hw : ∀ fuel, WaitMined Context.Background (fun _ => none) fuel 0 = none :=
    fun fuel => waitMined_background_pending _ fuel 0 (fun _ _ _ => rfl)
  constructor
  · rintro ⟨fuel, h⟩
    rw [hw fuel] at h
    simp at h
  · rintro ⟨fuel, h⟩
    apply h
    simp [CounterDeploy.main, CounterDeploy.prepare, CounterDeploy.deploy, env100, sampleEnv,
      hw fuel, exit_say, exit_act, exit_stop, minBalance]

/-- C7 amended: the wait runs with the background context, which has neither deadline nor
cancellation.  When the node first has the receipt at poll `k`, the wait returns that
receipt (state Mined) once it is granted more than `k` polls and has not returned
before; it never returns an error (no TimedOut, no Cancelled); and while the node has no
receipt it does not return at all. -/
theorem wait_ends_at_first_receipt (receiptAt : Nat → Option Receipt) (k : Nat)
    (receipt : Receipt) (hk : receiptAt k = some receipt)
    (hfirst : ∀ j, j < k → receiptAt j = none) :
    (∀ fuel, k < fuel →
      WaitMined Context.Background receiptAt fuel 0 = some (.mined receipt)) ∧
    (∀ fuel, fuel ≤ k → WaitMined Context.Background receiptAt fuel 0 = none) ∧
    (∀ (node : Nat → Option Receipt) (fuel : Nat) (err : String),
      WaitMined Context.Background node fuel 0 ≠ some (.failed err)) ∧
    (∀ (node : Nat → Option Receipt), (∀ j, node j = none) →
      ∀ fuel, WaitMined Context.Background node fuel 0 = none) := by
  refine ⟨fun fuel hf => ?_, fun fuel hf => ?_, fun node fuel err => ?_, fun node hn fuel => ?_⟩
  · exact waitMined_background_first receiptAt k fuel 0 receipt (by simpa using hk)
      (fun j hj => by simpa using hfirst j hj) hf
  · exact waitMined_background_pending receiptAt fuel 0 (fun j _ h2 => hfirst j (by omega))
  · exact waitMined_background_not_failed node fuel 0 err
  · exact waitMined_background_pending node fuel 0 (fun j _ _ => hn j)

/-- Witness of `wait_ends_at_first_receipt`: a node that has the receipt from the third
poll on. -/
theorem wait_ends_at_first_receipt_witness :
    (fun j => if j < 2 then none else some (⟨1, 7⟩ : Receipt)) 2 = some ⟨1, 7⟩ ∧
    (∀ j, j < 2 → (fun j => if j < 2 then none else some (⟨1, 7⟩ : Receipt)) j = none) ∧
    WaitMined Context.Background (fun j => if j < 2 then none else some ⟨1, 7⟩) 3 0 =
      some (.mined ⟨1, 7⟩) ∧
    WaitMined Context.Background (fun j => if j < 2 then none else some ⟨1, 7⟩) 2 0 = none :=
  ⟨rfl, fun j hj => by simp [hj],
    (wait_ends_at_first_receipt (fun j => if j < 2 then none else some ⟨1, 7⟩) 2 ⟨1, 7⟩ rfl
      (fun j hj => by simp [hj])).1 3 (by decide),
    (wait_ends_at_first_receipt (fun j => if j < 2 then none else some ⟨1, 7⟩) 2 ⟨1, 7⟩ rfl
      (fun j hj => by simp [hj])).2.1 2 (by decide)⟩

/-! ## Decoding `CountIncremented` -/

theorem length_encodeBE (n v : Nat) : (encodeBE n v).length = n := by
  induction n generalizing v with
  | zero => rfl
  | succ n ih => simp [encodeBE, ih]

theorem SetBytes_append (xs : List (Fin 256)) (b : Fin 256) :
    SetBytes (xs ++ [b]) = SetBytes xs * 256 + b.val := by
  simp [SetBytes, List.foldl_append]

/-- Reading the `n`-byte big-endian encoding gives the value back, modulo `256 ^ n`. -/
theorem SetBytes_encodeBE (n v : Nat) : SetBytes (encodeBE n v) = v % 256 ^ n := by
  induction n generalizing v with
  | zero => simp [encodeBE, SetBytes, Nat.mod_one]
  | succ n ih =>
    rw [encodeBE, SetBytes_append, ih]
    show v / 256 % 256 ^ n * 256 + v % 256 = v % 256 ^ (n + 1)
    rw [pow_succ, Nat.mul_comm (256 ^ n) 256, Nat.mod_mul]
    omega

/-- The 32-byte encoding of a `uint256` reads back as the value. -/
theorem SetBytes_encodeUint256 (v : Nat) (hv : v < 2 ^ 256) :
    SetBytes (word (encodeUint256 v) 0) = v := by
  have hlen : (encodeUint256 v).length = 32 := length_encodeBE 32 v
  have hw : word (encodeUint256 v) 0 = encodeUint256 v := by
    unfold word
    rw [List.drop_zero, List.take_of_length_le (by omega)]
  rw [hw, encodeUint256, SetBytes_encodeBE]
  exact Nat.mod_eq_of_lt (by norm_num at hv ⊢; omega)

/-- The lookup `find?` returns the one element with the property. -/
theorem find_unique {α : Type} (p : α → Bool) (l : List α) (x : α) (hx : x ∈ l)
    (hp : p x = true) (huniq : ∀ y ∈ l, p y = true → y = x) : l.find? p = some x := by
  induction l with
  | nil => simp at hx
  | cons a t ih =>
    by_cases ha : p a = true
    · rw [List.find?, ha, huniq a (List.mem_cons_self a t) ha]
    · have hxt : x ∈ t := by
        rcases List.mem_cons.mp hx with h | h
        · subst h
          exact absurd hp ha
        · exact h
      simp only [List.find?, Bool.not_eq_true] at ha ⊢
      rw [ha]
      exact ih hxt (fun y hy => huniq y (List.mem_cons_of_mem a hy))

/-- Unpacking the data of a `CountIncremented` log gives the encoded value. -/
theorem unpack_countIncremented (parsedABI : ABI) (id : Hash) (v : Nat) (hv : v < 2 ^ 256)
    (hname : parsedABI.Events.find? (fun event => event.Name == "CountIncremented") =
      some (countIncremented id)) :
    UnpackIntoInterface parsedABI "CountIncremented" (encodeUint256 v) = .ok ⟨some v⟩ := by
  have hlen : (encodeUint256 v).length = 32 := length_encodeBE 32 v
  simp [UnpackIntoInterface, hname, countIncremented, Unpack, NonIndexed, UnpackValues,
    toGoType, hlen, SetBytes_encodeUint256 v hv, Copy]

/-- C8: for every `uint256` value `v`, when the interface description holds the event
`CountIncremented(uint256 newCount)` as its only event with that identifier and that
name, the event loop turns a log whose first topic is the identifier and whose data is
the 32-byte encoding of `v` into the event name `CountIncremented` and the field
`newCount = v`, and goes on with the next entry. -/
theorem countIncremented_roundtrip (parsedABI : ABI) (id : Hash) (v : Nat) (txHash : Hash)
    (topics : List Hash) (i : Nat) (rest : List Log) (k : Run) (hv : v < 2 ^ 256)
    (hmem : countIncremented id ∈ parsedABI.Events)
    (hid : ∀ event ∈ parsedABI.Events, event.ID = id → event = countIncremented id)
    (hname : ∀ event ∈ parsedABI.Events, event.Name = "CountIncremented" →
      event = countIncremented id) :
    UnpackIntoInterface parsedABI "CountIncremented" (encodeUint256 v) = .ok ⟨some v⟩ ∧
    CounterDeploy.eventLoop parsedABI i (⟨txHash, id :: topics, encodeUint256 v⟩ :: rest) k =
      Run.say (.eventHeader (i + 1) txHash)
        (Run.say (.eventName "CountIncremented")
          (Run.say (.eventNewCount (some v)) (CounterDeploy.eventLoop parsedABI (i + 1) rest k))) := by
  have h1 : parsedABI.Events.find? (fun event => event.ID == id) = some (countIncremented id) :=
    find_unique _ _ _ hmem (by simp [countIncremented])
      (fun y hy hp => hid y hy (by simpa using hp))
  have h2 : parsedABI.Events.find? (fun event => event.Name == "CountIncremented") =
      some (countIncremented id) :=
    find_unique _ _ _ hmem (by simp [countIncremented])
      (fun y hy hp => hname y hy (by simpa using hp))
  have h3 := unpack_countIncremented parsedABI id v hv h2
  refine ⟨h3, ?_⟩
  have h4 : (countIncremented id).Name = "CountIncremented" := rfl
  rw [CounterDeploy.eventLoop]
  simp only [EventByID, h1, h4, h3, if_true]

/-- Witness of `countIncremented_roundtrip`: the value 7 under the sample interface
description; the data encoding 7 yields `newCount = 7`, also in the whole program. -/
theorem countIncremented_roundtrip_witness :
    7 < 2 ^ 256 ∧ countIncremented 77 ∈ sampleABI.Events ∧
    (∀ event ∈ sampleABI.Events, event.ID = 77 → event = countIncremented 77) ∧
    (∀ event ∈ sampleABI.Events, event.Name = "CountIncremented" →
      event = countIncremented 77) ∧
    (UnpackIntoInterface sampleABI "CountIncremented" (encodeUint256 7) = .ok ⟨some 7⟩ ∧
    CounterDeploy.eventLoop sampleABI 0 (⟨9, 77 :: [], encodeUint256 7⟩ :: []) CounterDeploy.closing =
      Run.say (.eventHeader (0 + 1) 9)
        (Run.say (.eventName "CountIncremented")
          (Run.say (.eventNewCount (some 7))
            (CounterDeploy.eventLoop sampleABI (0 + 1) [] CounterDeploy.closing)))) ∧
    Effect.print (.eventNewCount (some 7)) ∈ (CounterDeploy.main 1 env100).effects :=
  ⟨by norm_num, by simp [sampleABI], by simp [sampleABI], by simp [sampleABI],
    countIncremented_roundtrip sampleABI 77 7 9 [] 0 [] CounterDeploy.closing (by norm_num)
      (by simp [sampleABI]) (by simp [sampleABI]) (by simp [sampleABI]),
    by decide⟩

/-! ## The event loop as a whole -/

/-- An entry with a first topic is handled on its own: its lines are those of the loop
over that entry alone, and the loop goes on with the next entry whatever the lookup
or the decoding of this one gave. -/
theorem eventLoop_cons_of_topic (parsedABI : ABI) (i : Nat) (vLog : Log) (rest : List Log)
    (k : Run) (ht : vLog.Topics ≠ []) :
    (CounterDeploy.eventLoop parsedABI i (vLog :: rest) k).effects =
      (CounterDeploy.eventLoop parsedABI i [vLog] (Run.stop .finished)).effects ++
        (CounterDeploy.eventLoop parsedABI (i + 1) rest k).effects ∧
    (CounterDeploy.eventLoop parsedABI i (vLog :: rest) k).exit =
      (CounterDeploy.eventLoop parsedABI (i + 1) rest k).exit := by
  cases hT : vLog.Topics with
  | nil => exact absurd hT ht
  | cons topic0 topics =>
    simp only [CounterDeploy.eventLoop, hT]
    repeat' split
    all_goals simp [Run.say, Run.act, Run.stop]

/-- When every entry has a first topic the loop reaches the rest of the program. -/
theorem eventLoop_exit (parsedABI : ABI) (logs : List Log) (i : Nat) (k : Run)
    (ht : ∀ vLog ∈ logs, vLog.Topics ≠ []) :
    (CounterDeploy.eventLoop parsedABI i logs k).exit = k.exit := by
  induction logs generalizing i with
  | nil => rfl
  | cons vLog rest ih =>
    rw [(eventLoop_cons_of_topic parsedABI i vLog rest k
      (ht vLog (List.mem_cons_self vLog rest))).2]
    exact ih (i + 1) (fun l hl => ht l (List.mem_cons_of_mem vLog hl))

/-- An entry whose first topic matches no event is reported and skipped. -/
theorem eventLoop_unknown_topic (parsedABI : ABI) (i : Nat) (txHash topic0 : Hash)
    (topics : List Hash) (data : List (Fin 256)) (rest : List Log) (k : Run)
    (hno : ∀ event ∈ parsedABI.Events, event.ID ≠ topic0) :
    CounterDeploy.eventLoop parsedABI i (⟨txHash, topic0 :: topics, data⟩ :: rest) k =
      Run.say (.eventHeader (i + 1) txHash)
        (Run.say (.eventUnknown "no event with id")
          (CounterDeploy.eventLoop parsedABI (i + 1) rest k)) := by
  have h1 : parsedABI.Events.find? (fun event => event.ID == topic0) = none := by
    rw [List.find?_eq_none]
    intro event hmem
    simpa using hno event hmem
  rw [CounterDeploy.eventLoop]
  simp only [EventByID, h1]

/-- C9, failing input: the logs are an entry without topics followed by a
`CountIncremented` entry carrying 7.  The loop prints the header of the first entry and
panics at `vLog.Topics[0]`; the second entry is never decoded and the program ends there. -/
theorem eventLoop_panics_without_topics :
    CounterDeploy.eventLoop sampleABI 0 [⟨8, [], []⟩, ⟨9, [77], encodeUint256 7⟩]
        CounterDeploy.closing =
      ⟨[.print (.eventHeader 1 8)], .panicked⟩ ∧
    (CounterDeploy.main 1 (sampleEnv 2000000000000000 5 100 sampleABI 1 1
        [⟨8, [], []⟩, ⟨9, [77], encodeUint256 7⟩])).exit = .panicked ∧
    Effect.print (.eventNewCount (some 7)) ∉
      (CounterDeploy.main 1 (sampleEnv 2000000000000000 5 100 sampleABI 1 1
        [⟨8, [], []⟩, ⟨9, [77], encodeUint256 7⟩])).effects ∧
    Effect.print (.eventNewCount (some 7)) ∈
      (CounterDeploy.main 1 (sampleEnv 2000000000000000 5 100 sampleABI 1 1
        [⟨9, [77], encodeUint256 7⟩])).effects :=
  ⟨by decide, by decide, by decide, by decide⟩

/-! ## Errors of the queries -/

/-- Both deployment programs end at the first failed query with that error, before any
transaction call. -/
theorem deployment_stops_on_query_error (fuel : Nat) (env : Env) (err : String)
    (h1 : env.dial = none) (h2 : env.PRIVATE_KEY ≠ "") (h3 : env.hexToECDSA = none)
    (h4 : env.publicKeyOk = true) :
    (env.balance.err = some err →
      CounterDeploy.main fuel env =
        ⟨[.print .banner, .print .connected, .print (.usingAddress env.fromAddress)],
          .fatal .balance err⟩ ∧
      GoMain.main fuel env =
        ⟨[.print .banner, .print .connected, .print (.usingAddress env.fromAddress)],
          .fatal .balance err⟩) ∧
    (env.balance.err = none → minBalance ≤ env.balance.val → env.networkID.err = some err →
      CounterDeploy.main fuel env =
        ⟨[.print .banner, .print .connected, .print (.usingAddress env.fromAddress)],
          .fatal .chainID err⟩ ∧
      GoMain.main fuel env =
        ⟨[.print .banner, .print .connected, .print (.usingAddress env.fromAddress)],
          .fatal .chainID err⟩) ∧
    (env.balance.err = none → minBalance ≤ env.balance.val → env.networkID.err = none →
      env.newTransactor = none → env.pendingNonce.err = some err →
      CounterDeploy.main fuel env =
        ⟨[.print .banner, .print .connected, .print (.usingAddress env.fromAddress)],
          .fatal .nonce err⟩) ∧
    (env.balance.err = none → minBalance ≤ env.balance.val → env.networkID.err = none →
      env.newTransactor = none → env.suggestGasPrice.err = some err →
      (env.pendingNonce.err = none →
        CounterDeploy.main fuel env =
          ⟨[.print .banner, .print .connected, .print (.usingAddress env.fromAddress)],
            .fatal .gasPrice err⟩) ∧
      GoMain.main fuel env =
        ⟨[.print .banner, .print .connected, .print (.usingAddress env.fromAddress)],
          .fatal .gasPrice err⟩) := by
  refine ⟨fun e1 => ?_, fun e1 hb e2 => ?_, fun e1 hb e2 e3 e4 => ?_,
    fun e1 hb e2 e3 e4 => ⟨fun e5 => ?_, ?_⟩⟩
  all_goals
    simp [CounterDeploy.main, CounterDeploy.prepare, GoMain.main, GoMain.deploy, h1, h2, h3, h4,
      *, not_lt.mpr, Run.say, Run.act, Run.stop]

/-- C10, failing input: the pending-nonce query of send_transaction.go fails (the node
answers with an RPC error and the zero value).  The program discards the error, builds the
transfer with nonce 0, signs it and submits it, and ends normally. -/
theorem transfer_ignores_query_error :
    ({ env100 with pendingNonce := ⟨0, some "rpc error"⟩ } : Env).pendingNonce.err =
      some "rpc error" ∧
    SendTransaction.main { env100 with pendingNonce := ⟨0, some "rpc error"⟩ } =
      ⟨[.print (.sender ⟨"0xA"⟩), .print (.balance 2000000000000000),
        .signTx ⟨0, SendTransaction.toAddress, 100000000000000, 21000, 100, []⟩ 11155111,
        .sendTransaction ⟨0, SendTransaction.toAddress, 100000000000000, 21000, 100, []⟩
          11155111,
        .print .sent], .finished⟩ :=
  ⟨rfl, by decide⟩

/-- The run of send_transaction.go does not depend on the errors of its four queries. -/
theorem transfer_errors_discarded (env : Env) (e1 e2 e3 e4 : Option String) :
    SendTransaction.main
      { env with balance := ⟨env.balance.val, e1⟩, pendingNonce := ⟨env.pendingNonce.val, e2⟩,
                 suggestGasPrice := ⟨env.suggestGasPrice.val, e3⟩,
                 networkID := ⟨env.networkID.val, e4⟩ } =
      SendTransaction.main env := rfl

/-! ## The contract-address file -/

theorem writes_stop (e : Exit) : (Run.stop e).writes = [] := rfl

theorem writes_say (m : Msg) (k : Run) : (Run.say m k).writes = k.writes := rfl

theorem writes_act_deployContract (auth : TransactOpts) (k : Run) :
    (Run.act (.deployContract auth) k).writes = k.writes := rfl

theorem writes_act_transact (auth : TransactOpts) (method : String) (k : Run) :
    (Run.act (.transact auth method) k).writes = k.writes := rfl

theorem writes_act_writeFile (name content : String) (k : Run) :
    (Run.act (.writeFile name content) k).writes = (name, content) :: k.writes := rfl

theorem writes_sayCount (results : List (Option Int)) (k : Run) :
    (sayCount results k).writes = k.writes := by
  unfold sayCount
  split <;> simp [writes_say]

theorem writes_eventLoop (parsedABI : ABI) (logs : List Log) (i : Nat) (k : Run)
    (hk : k.writes = []) : (CounterDeploy.eventLoop parsedABI i logs k).writes = [] := by
  induction logs generalizing i with
  | nil => simpa [CounterDeploy.eventLoop] using hk
  | cons vLog rest ih =>
    unfold CounterDeploy.eventLoop
    repeat' split
    all_goals simp [writes_say, writes_stop, ih]

theorem writes_printLogs (logs : List Log) (k : Run) :
    (GoMain.printLogs logs k).writes = k.writes := by
  induction logs with
  | nil => rfl
  | cons vLog rest ih => simp [GoMain.printLogs, ih, writes_say]

theorem writes_afterIncrement (env : Env) (parsedABI : ABI) (receipt : Receipt) :
    (CounterDeploy.afterIncrement env parsedABI receipt).writes = [] := by
  unfold CounterDeploy.afterIncrement
  repeat' split
  all_goals
    simp only [writes_say, writes_stop, writes_sayCount]
  all_goals
    first
    | rfl
    | exact writes_eventLoop _ _ _ _ rfl

theorem writes_afterIncrement_main (env : Env) (receipt : Receipt) :
    (GoMain.afterIncrement env receipt).writes = [] := by
  unfold GoMain.afterIncrement
  repeat' split
  all_goals
    simp only [writes_say, writes_stop, writes_printLogs]
  all_goals rfl

theorem writes_interact (fuel : Nat) (env : Env) (auth : TransactOpts) (parsedABI : ABI) :
    (CounterDeploy.interact fuel env auth parsedABI).writes = [] := by
  unfold CounterDeploy.interact CounterDeploy.incrementCall
  repeat' split
  all_goals
    simp [writes_say, writes_stop, writes_sayCount, writes_act_transact, writes_afterIncrement]

theorem writes_interact_main (fuel : Nat) (env : Env) (auth : TransactOpts) :
    (GoMain.interact fuel env auth).writes = [] := by
  unfold GoMain.interact
  repeat' split
  all_goals
    simp [writes_say, writes_stop, writes_act_transact, writes_afterIncrement_main]

/-- The deployment stage writes the address file exactly when the receipt test succeeds. -/
theorem writes_afterDeploy (fuel : Nat) (env : Env) (auth : TransactOpts) (parsedABI : ABI)
    (address : Address) (receipt : Receipt) :
    (CounterDeploy.afterDeploy fuel env auth parsedABI address receipt).writes =
        (if receipt.Status = 1 then [("contract_address.txt", address.Hex)] else []) ∧
    (GoMain.afterDeploy fuel env auth address receipt).writes =
        (if receipt.Status = 1 then [("contract_address.txt", address.Hex)] else []) := by
  unfold CounterDeploy.afterDeploy GoMain.afterDeploy
  by_cases hs : receipt.Status = 1
  · have hs' : statusOk receipt = true := by simp [statusOk, hs]
    simp only [hs', hs, if_true, writes_say, writes_act_writeFile]
    constructor <;> split <;> simp [writes_say, writes_interact, writes_interact_main]
  · have hs' : statusOk receipt = false := by simp [statusOk, hs]
    simp [hs', hs, writes_say, writes_stop]

theorem writes_deploy (fuel : Nat) (env : Env) (auth : TransactOpts) :
    (CounterDeploy.deploy fuel env auth).writes = [] ∨
      ((CounterDeploy.deploy fuel env auth).writes =
          [("contract_address.txt", env.deployContract.val.Hex)] ∧
        ∃ receipt, WaitMined Context.Background env.deployReceipt fuel 0 =
          some (.mined receipt) ∧ receipt.Status = 1) := by
  unfold CounterDeploy.deploy
  split
  · exact Or.inl rfl
  · split
    · exact Or.inl rfl
    · split
      · exact Or.inl rfl
      · simp only [writes_say, writes_act_deployContract]
        split
        · exact Or.inl rfl
        · simp only [writes_say]
          split
          · exact Or.inl rfl
          · exact Or.inl rfl
          · rename_i receipt hw
            rw [(writes_afterDeploy fuel env _ _ _ receipt).1]
            by_cases hs : receipt.Status = 1
            · exact Or.inr ⟨by simp [hs], receipt, hw, hs⟩
            · exact Or.inl (by simp [hs])

theorem writes_prepare (fuel : Nat) (env : Env) :
    (CounterDeploy.prepare fuel env).writes = [] ∨
      ∃ auth, (CounterDeploy.prepare fuel env).writes = (CounterDeploy.deploy fuel env auth).writes := by
  unfold CounterDeploy.prepare
  split
  · exact Or.inl rfl
  · split
    · exact Or.inl rfl
    · split
      · exact Or.inl rfl
      · split
        · exact Or.inl rfl
        · exact Or.inr ⟨_, rfl⟩

theorem writes_deploy_main (fuel : Nat) (env : Env) :
    (GoMain.deploy fuel env).writes = [] ∨
      ((GoMain.deploy fuel env).writes =
          [("contract_address.txt", env.deployContract.val.Hex)] ∧
        ∃ receipt, WaitMined Context.Background env.deployReceipt fuel 0 =
          some (.mined receipt) ∧ receipt.Status = 1) := by
  unfold GoMain.deploy
  split
  · exact Or.inl rfl
  · split
    · exact Or.inl rfl
    · split
      · exact Or.inl rfl
      · split
        · exact Or.inl rfl
        · split
          · exact Or.inl rfl
          · simp only [writes_say, writes_act_deployContract]
            split
            · exact Or.inl rfl
            · simp only [writes_say]
              split
              · exact Or.inl rfl
              · exact Or.inl rfl
              · rename_i receipt hw
                rw [(writes_afterDeploy fuel env _ ⟨[]⟩ _ receipt).2]
                by_cases hs : receipt.Status = 1
                · exact Or.inr ⟨by simp [hs], receipt, hw, hs⟩
                · exact Or.inl (by simp [hs])

/-- Whatever the environment, a run of counter_deploy.go writes nothing, or writes the
address file once, with the address text as content, after a receipt of status 1. -/
theorem writes_counterDeploy (fuel : Nat) (env : Env) :
    (CounterDeploy.main fuel env).writes = [] ∨
      ((CounterDeploy.main fuel env).writes =
          [("contract_address.txt", env.deployContract.val.Hex)] ∧
        ∃ receipt, WaitMined Context.Background env.deployReceipt fuel 0 =
          some (.mined receipt) ∧ receipt.Status = 1) := by
  have hp : (CounterDeploy.main fuel env).writes = [] ∨
      (CounterDeploy.main fuel env).writes = (CounterDeploy.prepare fuel env).writes := by
    unfold CounterDeploy.main
    simp only [writes_say]
    split
    · exact Or.inl rfl
    · simp only [writes_say]
      split
      · exact Or.inl rfl
      · split
        · exact Or.inl rfl
        · split
          · exact Or.inl rfl
          · simp only [writes_say]
            split
            · exact Or.inl rfl
            · split
              · exact Or.inl rfl
              · exact Or.inr rfl
  rcases hp with h | h
  · exact Or.inl h
  · rw [h]
    rcases writes_prepare fuel env with h2 | ⟨auth, h2⟩
    · exact Or.inl h2
    · rw [h2]
      exact writes_deploy fuel env auth

/-- The same for main.go. -/
theorem writes_goMain (fuel : Nat) (env : Env) :
    (GoMain.main fuel env).writes = [] ∨
      ((GoMain.main fuel env).writes =
          [("contract_address.txt", env.deployContract.val.Hex)] ∧
        ∃ receipt, WaitMined Context.Background env.deployReceipt fuel 0 =
          some (.mined receipt) ∧ receipt.Status = 1) := by
  have hp : (GoMain.main fuel env).writes = [] ∨
      (GoMain.main fuel env).writes = (GoMain.deploy fuel env).writes := by
    unfold GoMain.main
    simp only [writes_say]
    split
    · exact Or.inl rfl
    · simp only [writes_say]
      split
      · exact Or.inl rfl
      · split
        · exact Or.inl rfl
        · split
          · exact Or.inl rfl
          · simp only [writes_say]
            split
            · exact Or.inl rfl
            · split
              · exact Or.inl rfl
              · exact Or.inr rfl
  rcases hp with h | h
  · exact Or.inl h
  · rw [h]
    exact writes_deploy_main fuel env

/-- With a deployment receipt of status 1 the run of counter_deploy.go performs the
deployment, reports it, and then writes the address file. -/
theorem effects_counterDeploy_succeeded (fuel : Nat) (env : Env) (receipt : Receipt)
    (hok : env.callsOk) (hbal : minBalance ≤ env.balance.val)
    (hsent : env.deployContract.err = none)
    (hwait : WaitMined Context.Background env.deployReceipt fuel 0 = some (.mined receipt))
    (hs : receipt.Status = 1) :
    ∃ pre post auth, (CounterDeploy.main fuel env).effects =
      pre ++ [.deployContract auth, .print (.deployed env.deployContract.val),
        .print .deploySucceeded,
        .writeFile "contract_address.txt" env.deployContract.val.Hex] ++ post := by
  obtain ⟨h1, h2, h3, h4, h5, h6, h7, h8, h9, h10, h11, h12⟩ := hok
  have hs' : statusOk receipt = true := by simp [statusOk, hs]
  refine ⟨[.print .banner, .print .connected, .print (.usingAddress env.fromAddress),
    .print (.gasPrice (env.suggestGasPrice.val * 12 / 10)), .print (.gasLimit 300000),
    .print .deploying],
    (match env.writeFile with
      | some err => Run.say (.addressNotSaved err)
          (CounterDeploy.interact fuel env ⟨env.networkID.val, some (int64 env.pendingNonce.val),
            some (env.suggestGasPrice.val * 12 / 10), 300000, some 0⟩ env.parseABI.val)
      | none => Run.say .addressSaved
          (CounterDeploy.interact fuel env ⟨env.networkID.val, some (int64 env.pendingNonce.val),
            some (env.suggestGasPrice.val * 12 / 10), 300000, some 0⟩ env.parseABI.val)).effects,
    ⟨env.networkID.val, some (int64 env.pendingNonce.val),
      some (env.suggestGasPrice.val * 12 / 10), 300000, some 0⟩, ?_⟩
  simp only [CounterDeploy.main, CounterDeploy.prepare, CounterDeploy.deploy,
    CounterDeploy.afterDeploy, h1, h2, h3, h4, h5, h6, h7, h8, h9, h10, h11, h12, hsent, hwait,
    hs', not_lt.mpr hbal, effects_say, effects_act, if_true, if_false, Bool.not_true,
    Bool.false_eq_true, List.cons_append, List.nil_append]

/-- The same for main.go. -/
theorem effects_goMain_succeeded (fuel : Nat) (env : Env) (receipt : Receipt)
    (hok : env.callsOk) (hbal : minBalance ≤ env.balance.val)
    (hsent : env.deployContract.err = none)
    (hwait : WaitMined Context.Background env.deployReceipt fuel 0 = some (.mined receipt))
    (hs : receipt.Status = 1) :
    ∃ pre post auth, (GoMain.main fuel env).effects =
      pre ++ [.deployContract auth, .print (.deployed env.deployContract.val),
        .print .deploySucceeded,
        .writeFile "contract_address.txt" env.deployContract.val.Hex] ++ post := by
  obtain ⟨h1, h2, h3, h4, h5, h6, h7, h8, h9, h10, h11, h12⟩ := hok
  have hs' : statusOk receipt = true := by simp [statusOk, hs]
  refine ⟨[.print .banner, .print .connected, .print (.usingAddress env.fromAddress),
    .print .deploying],
    (match env.writeFile with
      | some err => Run.say (.addressNotSaved err)
          (GoMain.interact fuel env ⟨env.networkID.val, none,
            some (env.suggestGasPrice.val * 12 / 10), 300000, none⟩)
      | none => Run.say .addressSaved
          (GoMain.interact fuel env ⟨env.networkID.val, none,
            some (env.suggestGasPrice.val * 12 / 10), 300000, none⟩)).effects,
    ⟨env.networkID.val, none,
      some (env.suggestGasPrice.val * 12 / 10), 300000, none⟩, ?_⟩
  simp only [GoMain.main, GoMain.deploy, GoMain.afterDeploy, h1, h2, h3, h4, h5, h6, h7, h8,
    h9, h10, h11, h12, hsent, hwait, hs', not_lt.mpr hbal, effects_say, effects_act, if_true,
    if_false, Bool.not_true, Bool.false_eq_true, List.cons_append, List.nil_append]

/-- C11: the contract-address file is written at most once per run, only after a
deployment receipt of status 1 has been obtained, and its content is the text
`address.Hex()` of the deployed address with nothing appended.  With a receipt of status
1 the file is the single write of the run, placed after the deployment and its success
line; with any other status nothing is written. -/
theorem address_file_written_once (fuel : Nat) (env : Env) (receipt : Receipt)
    (hok : env.callsOk) (hbal : minBalance ≤ env.balance.val)
    (hsent : env.deployContract.err = none)
    (hwait : WaitMined Context.Background env.deployReceipt fuel 0 = some (.mined receipt)) :
    (receipt.Status = 1 →
      (CounterDeploy.main fuel env).writes =
        [("contract_address.txt", env.deployContract.val.Hex)] ∧
      (GoMain.main fuel env).writes =
        [("contract_address.txt", env.deployContract.val.Hex)] ∧
      (∃ pre post auth, (CounterDeploy.main fuel env).effects =
        pre ++ [.deployContract auth, .print (.deployed env.deployContract.val),
          .print .deploySucceeded,
          .writeFile "contract_address.txt" env.deployContract.val.Hex] ++ post) ∧
      (∃ pre post auth, (GoMain.main fuel env).effects =
        pre ++ [.deployContract auth, .print (.deployed env.deployContract.val),
          .print .deploySucceeded,
          .writeFile "contract_address.txt" env.deployContract.val.Hex] ++ post)) ∧
    (receipt.Status ≠ 1 →
      (CounterDeploy.main fuel env).writes = [] ∧ (GoMain.main fuel env).writes = []) ∧
    (∀ (n : Nat) (e : Env) (r : Run), r = CounterDeploy.main n e ∨ r = GoMain.main n e →
      r.writes.length ≤ 1 ∧
      ∀ w ∈ r.writes, w = ("contract_address.txt", e.deployContract.val.Hex) ∧
        ∃ receipt, WaitMined Context.Background e.deployReceipt n 0 = some (.mined receipt) ∧
          receipt.Status = 1) := by
  refine ⟨fun hs => ?_, fun hs => ?_, fun n e r hr => ?_⟩
  · obtain ⟨p1, q1, a1, e1⟩ := effects_counterDeploy_succeeded fuel env receipt hok hbal hsent hwait hs
    obtain ⟨p2, q2, a2, e2⟩ := effects_goMain_succeeded fuel env receipt hok hbal hsent hwait hs
    refine ⟨?_, ?_, ⟨p1, q1, a1, e1⟩, ⟨p2, q2, a2, e2⟩⟩
    · rcases writes_counterDeploy fuel env with h | ⟨h, -⟩
      · exfalso
        have hmem : Effect.writeFile "contract_address.txt" env.deployContract.val.Hex ∈
            (CounterDeploy.main fuel env).effects := by rw [e1]; simp
        have : ("contract_address.txt", env.deployContract.val.Hex) ∈
            (CounterDeploy.main fuel env).writes :=
          List.mem_filterMap.mpr ⟨_, hmem, rfl⟩
        rw [h] at this
        simp at this
      · exact h
    · rcases writes_goMain fuel env with h | ⟨h, -⟩
      · exfalso
        have hmem : Effect.writeFile "contract_address.txt" env.deployContract.val.Hex ∈
            (GoMain.main fuel env).effects := by rw [e2]; simp
        have : ("contract_address.txt", env.deployContract.val.Hex) ∈
            (GoMain.main fuel env).writes :=
          List.mem_filterMap.mpr ⟨_, hmem, rfl⟩
        rw [h] at this
        simp at this
      · exact h
  · rw [counterDeploy_failed_receipt fuel env receipt hok hbal hsent hwait hs,
      goMain_failed_receipt fuel env receipt hok hbal hsent hwait hs]
    exact ⟨rfl, rfl⟩
  · have key : r.writes = [] ∨
        (r.writes = [("contract_address.txt", e.deployContract.val.Hex)] ∧
          ∃ receipt, WaitMined Context.Background e.deployReceipt n 0 =
            some (.mined receipt) ∧ receipt.Status = 1) := by
      rcases hr with rfl | rfl
      · exact writes_counterDeploy n e
      · exact writes_goMain n e
    rcases key with h | ⟨h, hrec⟩
    · rw [h]
      simp
    · rw [h]
      refine ⟨by simp, fun w hw => ?_⟩
      rw [List.mem_singleton.mp hw]
      exact ⟨rfl, hrec⟩

/-- Witness of `address_file_written_once`: the sample environment, whose deployment
receipt has status 1 and whose contract address reads `0xC`. -/
theorem address_file_written_once_witness :
    env100.callsOk ∧ minBalance ≤ env100.balance.val ∧ env100.deployContract.err = none ∧
    WaitMined Context.Background env100.deployReceipt 1 0 = some (.mined ⟨1, 1⟩) ∧
    (CounterDeploy.main 1 env100).writes = [("contract_address.txt", "0xC")] ∧
    (GoMain.main 1 env100).writes = [("contract_address.txt", "0xC")] :=
  ⟨callsOk_sampleEnv _ _ _ _ _ _ _, by decide, rfl, rfl,
    ((address_file_written_once 1 env100 ⟨1, 1⟩ (callsOk_sampleEnv _ _ _ _ _ _ _) (by decide)
      rfl rfl).1 rfl).1,
    ((address_file_written_once 1 env100 ⟨1, 1⟩ (callsOk_sampleEnv _ _ _ _ _ _ _) (by decide)
      rfl rfl).1 rfl).2.1⟩

/-! ## The gas quote -/

/-- Every transaction call of send_transaction.go signs or sends the one transfer. -/
theorem mem_txs_sendTransaction (env : Env) (h1 : env.dial = none)
    (h3 : env.hexToECDSA = none) (h4 : env.publicKeyOk = true) :
    ∀ e ∈ (SendTransaction.main env).txs,
      e = .signTx ⟨env.pendingNonce.val, SendTransaction.toAddress, 100000000000000, 21000,
          env.suggestGasPrice.val, []⟩ env.networkID.val ∨
      e = .sendTransaction ⟨env.pendingNonce.val, SendTransaction.toAddress, 100000000000000,
          21000, env.suggestGasPrice.val, []⟩ env.networkID.val := by
  intro e he
  simp only [SendTransaction.main, h1, h3, h4, txs_say, txs_act, Effect.isTx, if_true,
    Bool.not_true, Bool.false_eq_true, if_false] at he
  split at he
  · simp [txs_stop] at he
    exact Or.inl he
  · simp only [txs_act, Effect.isTx, if_true, List.mem_cons] at he
    rcases he with he | he | he
    · exact Or.inl he
    · exact Or.inr he
    · split at he <;> simp [txs_stop, txs_say] at he

/-- A positive price stays positive, and does not decrease, under the 12/10 step. -/
theorem escalated_price_bounds (p : Int) (hp : 0 < p) : 1 ≤ p * 12 / 10 ∧ p ≤ p * 12 / 10 := by
  constructor <;> omega

/-- C12: when the node suggests positive gas prices, every transaction the programs
build carries a strictly positive gas price that is not below the suggested one and a
gas limit of at least 21000.  The deployment carries `p * 12 / 10` (at least 1 and at
least `p`) with limit 300000, the `increment` call the price suggested at that moment
with limit 300000, and the transfer the suggested price with limit 21000. -/
theorem gas_quote_invariant (fuel : Nat) (env : Env)
    (hp : 0 < env.suggestGasPrice.val) (hp2 : 0 < env.suggestGasPrice2.val)
    (hok : env.callsOk) (hbal : minBalance ≤ env.balance.val) (hdep : env.deployedOk fuel) :
    (1 ≤ env.suggestGasPrice.val * 12 / 10 ∧
      env.suggestGasPrice.val ≤ env.suggestGasPrice.val * 12 / 10) ∧
    (∃ deployAuth callAuth deployPrice callPrice,
      (CounterDeploy.main fuel env).txs =
        [.deployContract deployAuth, .transact callAuth "increment"] ∧
      deployAuth.GasPrice = some deployPrice ∧ 0 < deployPrice ∧
      env.suggestGasPrice.val ≤ deployPrice ∧
      deployAuth.GasLimit = 300000 ∧ 21000 ≤ deployAuth.GasLimit ∧
      callAuth.GasPrice = some callPrice ∧ 0 < callPrice ∧
      env.suggestGasPrice2.val ≤ callPrice ∧
      callAuth.GasLimit = 300000 ∧ 21000 ≤ callAuth.GasLimit) ∧
    (∃ deployAuth callAuth deployPrice callPrice,
      (GoMain.main fuel env).txs =
        [.deployContract deployAuth, .transact callAuth "increment"] ∧
      deployAuth.GasPrice = some deployPrice ∧ 0 < deployPrice ∧
      env.suggestGasPrice.val ≤ deployPrice ∧
      deployAuth.GasLimit = 300000 ∧ 21000 ≤ deployAuth.GasLimit ∧
      callAuth.GasPrice = some callPrice ∧ 0 < callPrice ∧
      env.suggestGasPrice2.val ≤ callPrice ∧
      callAuth.GasLimit = 300000 ∧ 21000 ≤ callAuth.GasLimit) ∧
    (∃ tx chainID, (SendTransaction.main env).txs.head? = some (.signTx tx chainID) ∧
      (∀ e ∈ (SendTransaction.main env).txs, e = .signTx tx chainID ∨
        e = .sendTransaction tx chainID) ∧
      0 < tx.GasPrice ∧ env.suggestGasPrice.val ≤ tx.GasPrice ∧
      tx.Gas = 21000 ∧ 21000 ≤ tx.Gas) := by
  have hb := escalated_price_bounds env.suggestGasPrice.val hp
  have h3 : (21000 : Nat) ≤ 300000 := by decide
  refine ⟨hb, ⟨_, _, _, _, txs_counterDeploy fuel env hok hbal hdep, rfl, by omega, hb.2, rfl,
      h3, rfl, hp2, le_refl _, rfl, h3⟩,
    ⟨_, _, _, _, txs_goMain fuel env hok hbal hdep, rfl, by omega, hb.2, rfl,
      h3, rfl, hp2, le_refl _, rfl, h3⟩,
    ⟨_, _, head_txs_sendTransaction env hok.1 hok.2.2.1 hok.2.2.2.1,
      mem_txs_sendTransaction env hok.1 hok.2.2.1 hok.2.2.2.1, hp, le_refl _, rfl,
      le_refl _⟩⟩

/-- Witness of `gas_quote_invariant`: the sample environment, suggested price 100. -/
theorem gas_quote_invariant_witness :
    0 < env100.suggestGasPrice.val ∧ 0 < env100.suggestGasPrice2.val ∧ env100.callsOk ∧
    minBalance ≤ env100.balance.val ∧ env100.deployedOk 1 ∧
    (1 ≤ env100.suggestGasPrice.val * 12 / 10 ∧
      env100.suggestGasPrice.val ≤ env100.suggestGasPrice.val * 12 / 10) ∧
    (CounterDeploy.main 1 env100).txs =
      [.deployContract ⟨11155111, some 5, some 120, 300000, some 0⟩,
       .transact ⟨11155111, some 6, some 100, 300000, some 0⟩ "increment"] :=
  ⟨by decide, by decide, callsOk_sampleEnv _ _ _ _ _ _ _, by decide,
    deployedOk_sampleEnv _ _ _ _ _ _,
    (gas_quote_invariant 1 env100 (by decide) (by decide) (callsOk_sampleEnv _ _ _ _ _ _ _)
      (by decide) (deployedOk_sampleEnv _ _ _ _ _ _)).1,
    by decide⟩

/-! ## The block search -/

/-- When no transaction has the target hash the loop leaves the variables as they are
and prints nothing. -/
theorem searchLoop_absent (env : QueryBlockNumber.BlockEnv) (txHash : Hash)
    (transactions : List QueryBlockNumber.BlockTx) (i : Nat) (s : QueryBlockNumber.Search)
    (hno : ∀ tx ∈ transactions, tx.Hash ≠ txHash) :
    QueryBlockNumber.searchLoop env txHash i transactions s = (s, []) := by
  induction transactions generalizing i with
  | nil => rfl
  | cons tx rest ih =>
    rw [QueryBlockNumber.searchLoop, if_neg (hno tx (List.mem_cons_self tx rest))]
    exact ih (i + 1) (fun t ht => hno t (List.mem_cons_of_mem tx ht))

/-- When some transaction has the target hash the loop stops at the first one: it sets
`found`, sets `position` to one more than its index, and prints it (with its receipt). -/
theorem searchLoop_present (env : QueryBlockNumber.BlockEnv) (txHash : Hash)
    (transactions : List QueryBlockNumber.BlockTx) (i : Nat) (s : QueryBlockNumber.Search)
    (hsome : ∃ tx ∈ transactions, tx.Hash = txHash) :
    ∃ pre tx post tail, transactions = pre ++ tx :: post ∧ tx.Hash = txHash ∧
      (∀ t ∈ pre, t.Hash ≠ txHash) ∧
      transactions.findIdx (fun t => t.Hash == txHash) = pre.length ∧
      QueryBlockNumber.searchLoop env txHash i transactions s =
        (⟨true, ((i + pre.length : Nat) : Int) + 1⟩,
          .target (((i + pre.length : Nat) : Int) + 1) tx :: tail) ∧
      ∀ l ∈ tail, ∃ status gasUsed txFee, l = .receipt status gasUsed txFee := by
  induction transactions generalizing i with
  | nil =>
    obtain ⟨tx, hmem, -⟩ := hsome
    simp at hmem
  | cons a rest ih =>
    by_cases ha : a.Hash = txHash
    · refine ⟨[], a, rest,
        (match env.transactionReceipt.err with
          | none => [.receipt (statusOk env.transactionReceipt.val) env.GasUsed
              (a.GasPrice * int64 env.GasUsed)]
          | some _ => []),
        rfl, ha, by simp, by simp [List.findIdx_cons, ha], ?_, ?_⟩
      · rw [QueryBlockNumber.searchLoop, if_pos ha]
        simp only [List.length_nil, Nat.add_zero]
      · intro l hl
        split at hl
        · simp only [List.mem_singleton] at hl
          exact ⟨_, _, _, hl⟩
        · simp at hl
    · have hrest : ∃ tx ∈ rest, tx.Hash = txHash := by
        obtain ⟨tx, hmem, htx⟩ := hsome
        rcases List.mem_cons.mp hmem with h | h
        · subst h
          exact absurd htx ha
        · exact ⟨tx, h, htx⟩
      obtain ⟨pre, tx, post, tail, e1, e2, e3, e4, e5, e6⟩ := ih (i + 1) hrest
      refine ⟨a :: pre, tx, post, tail, by simp [e1], e2, ?_, ?_, ?_, e6⟩
      · intro t ht
        rcases List.mem_cons.mp ht with h | h
        · subst h
          exact ha
        · exact e3 t h
      · have hb : (a.Hash == txHash) = false := by simpa using ha
        simp [List.findIdx_cons, hb, e4]
      · rw [QueryBlockNumber.searchLoop, if_neg ha, e5]
        simp only [List.length_cons]
        rw [show i + 1 + pre.length = i + (pre.length + 1) by omega]

/-- C13: for every list of transactions of the block and every target hash, the search
sets `found` exactly when some transaction of the list has that hash.  When found,
`position` is one more than the index of the first transaction with that hash, so it lies
between 1 and the length of the list, and the program reports that position; when not
found, `position` stays 0 and the program reports that the transaction is not in the
block. -/
theorem block_search_position (env : QueryBlockNumber.BlockEnv) (txHash : Hash)
    (transactions : List QueryBlockNumber.BlockTx) :
    (((QueryBlockNumber.searchLoop env txHash 0 transactions
        QueryBlockNumber.Search.init).1.found = true ↔
      ∃ tx ∈ transactions, tx.Hash = txHash)) ∧
    ((∃ tx ∈ transactions, tx.Hash = txHash) →
      ∃ pre tx post, transactions = pre ++ tx :: post ∧ tx.Hash = txHash ∧
        (∀ t ∈ pre, t.Hash ≠ txHash) ∧
        transactions.findIdx (fun t => t.Hash == txHash) = pre.length ∧
        (QueryBlockNumber.searchLoop env txHash 0 transactions
          QueryBlockNumber.Search.init).1.position = (pre.length : Int) + 1 ∧
        1 ≤ (QueryBlockNumber.searchLoop env txHash 0 transactions
          QueryBlockNumber.Search.init).1.position ∧
        (QueryBlockNumber.searchLoop env txHash 0 transactions
          QueryBlockNumber.Search.init).1.position ≤ (transactions.length : Int) ∧
        (env.dial = none → env.blockByNumber = ⟨transactions, none⟩ →
          .target ((pre.length : Int) + 1) tx ∈ (QueryBlockNumber.main env txHash).1 ∧
          (QueryBlockNumber.main env txHash).1.getLast? = some (.done ((pre.length : Int) + 1)) ∧
          .notFound ∉ (QueryBlockNumber.main env txHash).1)) ∧
    ((∀ tx ∈ transactions, tx.Hash ≠ txHash) →
      (QueryBlockNumber.searchLoop env txHash 0 transactions
        QueryBlockNumber.Search.init).1 = ⟨false, 0⟩ ∧
      (env.dial = none → env.blockByNumber = ⟨transactions, none⟩ →
        (QueryBlockNumber.main env txHash).1 =
          .blockFound transactions.length :: .notFound ::
            (match env.transactionReceipt.err with
              | some _ => [.absent]
              | none => [.elsewhere env.transactionReceipt.val.BlockNumber]))) := by
  refine ⟨⟨fun hf => ?_, fun hsome => ?_⟩, fun hsome => ?_, fun hno => ?_⟩
  · by_contra hne
    have hno : ∀ tx ∈ transactions, tx.Hash ≠ txHash :=
      fun tx hmem htx => hne ⟨tx, hmem, htx⟩
    rw [searchLoop_absent env txHash transactions 0 _ hno] at hf
    simp [QueryBlockNumber.Search.init] at hf
  · obtain ⟨pre, tx, post, tail, -, -, -, -, e5, -⟩ :=
      searchLoop_present env txHash transactions 0 QueryBlockNumber.Search.init hsome
    rw [e5]
  · obtain ⟨pre, tx, post, tail, e1, e2, e3, e4, e5, e6⟩ :=
      searchLoop_present env txHash transactions 0 QueryBlockNumber.Search.init hsome
    have hlen : transactions.length = pre.length + 1 + post.length := by
      rw [e1]
      simp
      omega
    simp only [Nat.zero_add] at e5
    have hpos1 : (1 : Int) ≤ (pre.length : Int) + 1 := by omega
    have hpos2 : (pre.length : Int) + 1 ≤ (transactions.length : Int) := by omega
    refine ⟨pre, tx, post, e1, e2, e3, e4, by rw [e5], by rw [e5]; exact hpos1,
      by rw [e5]; exact hpos2, fun hd hb => ?_⟩
    have hmain : (QueryBlockNumber.main env txHash).1 =
        .blockFound transactions.length ::
          (.target ((pre.length : Int) + 1) tx :: tail) ++ [.done ((pre.length : Int) + 1)] := by
      simp [QueryBlockNumber.main, hd, hb, e5, QueryBlockNumber.report]
    rw [hmain]
    refine ⟨by simp, ?_, ?_⟩
    · rw [List.getLast?_append]
      rfl
    simp only [List.cons_append, List.mem_cons, List.mem_append, List.mem_singleton, not_or]
    refine ⟨by simp, by simp, ?_, by simp⟩
    intro hmem
    obtain ⟨a, b, c, h⟩ := e6 _ hmem
    simp at h
  · have e := searchLoop_absent env txHash transactions 0 QueryBlockNumber.Search.init hno
    refine ⟨by rw [e]; rfl, fun hd hb => ?_⟩
    simp only [QueryBlockNumber.main, hd, hb, e, QueryBlockNumber.report]
    rfl

/-- A block whose second and third transactions both have the target hash: the search
reports position 2; for a hash that is not in the block it reports 0. -/
theorem block_search_example :
    (QueryBlockNumber.searchLoop ⟨none, ⟨[], none⟩, ⟨⟨1, 9⟩, none⟩, 21000⟩ 5 0
      [⟨3, 0, 0, 0, 0⟩, ⟨5, 1, 21000, 10, 2⟩, ⟨5, 0, 0, 0, 0⟩]
      QueryBlockNumber.Search.init).1 = ⟨true, 2⟩ ∧
    (QueryBlockNumber.searchLoop ⟨none, ⟨[], none⟩, ⟨⟨1, 9⟩, none⟩, 21000⟩ 7 0
      [⟨3, 0, 0, 0, 0⟩, ⟨5, 1, 21000, 10, 2⟩, ⟨5, 0, 0, 0, 0⟩]
      QueryBlockNumber.Search.init).1 = ⟨false, 0⟩ := by
  decide

end GoEthClient
